import Mathlib

/-!
# Virtual-memory core of the kernel: address spaces, regions, page table, fault handler

A shallow embedding of `kern/vm/addrspace.c` and `kern/vm/vm.c`.

* Machine words (`vaddr_t`, `paddr_t`, `size_t`, `int` bit patterns) are natural numbers;
  every operation that can leave the 32-bit range is followed by an explicit `% 2 ^ 32`.
* The singly linked region chain `as->first` is a `List region`, head first.
* The page directory `as->pagetable` is `Option (Nat → Option (Nat → Nat))`: `none` is a null
  directory pointer, a directory maps a slot index to `none` (null) or to a second-level
  table, and a table maps a slot index to the stored 32-bit word.
* A null pointer dereference has no defined result: functions that can perform one return
  `Option`, and `none` stands for that event.
* Results of the external allocators are passed in as arguments (what `kmalloc` or
  `alloc_kpages` hands back when it is called); calls to `alloc_kpages`, `bzero` and
  `tlb_random` are recorded in the value returned by `vm_fault`.
-/

namespace VM

/-! ## Constants of headers that are not among the source files -/

/-- Modelled from the spec: `PAGE_SIZE = 4096` (machine/vm.h is not among the source files). -/
def PAGE_SIZE : Nat := 4096

/-- Modelled from the spec: `PAGE_FRAME` is the mask selecting the frame bits, the bits above
the 12-bit page offset of a 32-bit address (machine/vm.h is not among the source files). -/
def PAGE_FRAME : Nat := 0xfffff000

/-- Modelled from the spec: `MIPS_KSEG0` is the user/kernel boundary `0x80000000`
(machine/vm.h is not among the source files). -/
def MIPS_KSEG0 : Nat := 0x80000000

/-- Modelled from the spec: `USERSTACK` is the top of the user address space, which is the
user/kernel boundary (machine/vm.h is not among the source files). -/
def USERSTACK : Nat := MIPS_KSEG0

/-- Modelled from the spec: `NUM_PD_ENTRY = 2048` (vm.h is not among the source files). -/
def NUM_PD_ENTRY : Nat := 2048

/-- Modelled from the spec: `NUM_PT_ENTRY = 512` (vm.h is not among the source files). -/
def NUM_PT_ENTRY : Nat := 512

/-- Modelled from the spec: the sentinel for an unallocated slot, a bit pattern no encoded
PTE can take; the spec suggests all-ones and the comment in `insert_pte` says the slots are
set to -1, which is `0xFFFFFFFF` as a `paddr_t` (vm.h is not among the source files). -/
def PTE_UNALLOCATED : Nat := 0xFFFFFFFF

/-- Modelled from the spec: ELF permission bit `PF_R` (elf.h is not among the source files;
the value is the one of the ELF format). -/
def PF_R : Nat := 4

/-- Modelled from the spec: ELF permission bit `PF_W` (elf.h is not among the source files;
the value is the one of the ELF format). -/
def PF_W : Nat := 2

/-- Modelled from the spec: ELF permission bit `PF_X` (elf.h is not among the source files;
the value is the one of the ELF format). -/
def PF_X : Nat := 1

/-- Modelled from the spec: TLB entry-low flag `VALID` (machine/tlb.h is not among the source
files; the value is the one of the MIPS R3000 entry-low word). -/
def TLBLO_VALID : Nat := 0x00000200

/-- Modelled from the spec: TLB entry-low flag `DIRTY`, the write-enable bit (machine/tlb.h is
not among the source files; the value is the one of the MIPS R3000 entry-low word). -/
def TLBLO_DIRTY : Nat := 0x00000400

/-- Modelled from the spec: error code `NOMEM` (kern/errno.h is not among the source files;
only that the four codes are non-zero and pairwise different is used). -/
def ENOMEM : Nat := 3

/-- Modelled from the spec: error code `FAULT` (kern/errno.h is not among the source files). -/
def EFAULT : Nat := 6

/-- Modelled from the spec: error code `INVALID` (kern/errno.h is not among the source files). -/
def EINVAL : Nat := 8

/-- Modelled from the spec: error code `PERM` (kern/errno.h is not among the source files). -/
def EPERM : Nat := 9

/-- Modelled from the spec: fault type `READ` (vm.h is not among the source files). -/
def VM_FAULT_READ : Int := 0

/-- Modelled from the spec: fault type `WRITE` (vm.h is not among the source files). -/
def VM_FAULT_WRITE : Int := 1

/-- Modelled from the spec: fault type `READONLY` (vm.h is not among the source files). -/
def VM_FAULT_READONLY : Int := 2

/-- Modelled from the spec: `KVADDR_TO_PADDR` is the identity on the kernel-window offset,
the inverse of adding `MIPS_KSEG0`, in 32-bit arithmetic (machine/vm.h is not among the
source files). -/
def KVADDR_TO_PADDR (kvaddr : Nat) : Nat := (kvaddr + (2 ^ 32 - MIPS_KSEG0)) % 2 ^ 32

/-! ## Data model -/

/-- One node of the region chain (`struct region`, without its `next` pointer). -/
structure region where
  base_addr : Nat
  memsize : Nat
  permissions : Nat
  old_permissions : Nat
deriving DecidableEq, Repr

/-- The address-space object (`struct addrspace`): region chain and page-directory pointer. -/
structure addrspace where
  first : List region
  pagetable : Option (Nat → Option (Nat → Nat))

/-- The part of a process that `proc_getas` reads. -/
structure proc where
  p_addrspace : Option addrspace

/-! ## Bit helpers (`vm.c`) -/

/-- `get_pd_bits`: the page-directory index, the top 11 bits. -/
def get_pd_bits (vaddr : Nat) : Nat := vaddr >>> 21

/-- `get_pt_bits`: the page-table index, 9 bits; the left shift is a 32-bit shift. -/
def get_pt_bits (vaddr : Nat) : Nat := ((vaddr <<< 11) % 2 ^ 32) >>> 23

/-- Modelled from the spec: `get_first_10_bits` is called by `lookup_pt` and is defined in
none of the source files; the spec gives one directory index, `pd_index(v) = v >> 21`, for
lookup and insert alike. -/
def get_first_10_bits (vaddr : Nat) : Nat := vaddr >>> 21

/-- Modelled from the spec: `get_middle_10_bits` is called by `lookup_pt` and is defined in
none of the source files; the spec gives one table index, `pt_index(v) = (v << 11) >> 23`,
for lookup and insert alike. -/
def get_middle_10_bits (vaddr : Nat) : Nat := ((vaddr <<< 11) % 2 ^ 32) >>> 23

/-! ## Region list (`addrspace.c`) -/

/-- The `while` loop of `check_region`: `EINVAL` at the first node whose range the new range
`[vaddr, new_end)` overlaps by the test `vaddr < curr_end && new_end > curr->base_addr`,
0 when the chain ends. -/
def check_region_scan (vaddr new_end : Nat) : List region → Nat
  | [] => 0
  | curr :: rest =>
    let curr_end := (curr.base_addr + curr.memsize) % 2 ^ 32
    if vaddr < curr_end ∧ new_end > curr.base_addr then EINVAL
    else check_region_scan vaddr new_end rest

/-- `check_region(as, vaddr, memsize)`: wrap-around of the end address, kernel boundary, then
the overlap loop. -/
def check_region (as : addrspace) (vaddr memsize : Nat) : Nat :=
  if (vaddr + memsize) % 2 ^ 32 < vaddr then EINVAL
  else
    let new_end := (vaddr + memsize) % 2 ^ 32
    if new_end > MIPS_KSEG0 then EFAULT
    else check_region_scan vaddr new_end as.first

/-- `as_define_region(as, vaddr, memsize, readable, writeable, executable)`.
`as = none` is the null pointer. `kmalloc_node` is what `kmalloc(sizeof(struct region))`
gives when it is called: `none` for failure, `some g` for a node whose field
`old_permissions`, which the function never writes, holds `g`.
The result is the return value and the address space afterwards. -/
def as_define_region (as : Option addrspace) (vaddr memsize : Nat)
    (readable writeable executable : Int) (kmalloc_node : Option Nat) :
    Nat × Option addrspace :=
  match as with
  | none => (EINVAL, none)
  | some a =>
    let memsize1 := (memsize + (vaddr &&& (0xFFFFFFFF - PAGE_FRAME))) % 2 ^ 32
    let vaddr1 := vaddr &&& PAGE_FRAME
    let memsize2 := ((memsize1 + PAGE_SIZE - 1) % 2 ^ 32) &&& PAGE_FRAME
    let result := check_region a vaddr1 memsize2
    if result ≠ 0 then (result, some a)
    else
      match kmalloc_node with
      | none => (ENOMEM, some a)
      | some g =>
        let p0 : Nat := 0
        let p1 := if readable ≠ 0 then p0 ||| PF_R else p0
        let p2 := if writeable ≠ 0 then p1 ||| PF_W else p1
        let p3 := if executable ≠ 0 then p2 ||| PF_X else p2
        let new_region : region :=
          { base_addr := vaddr1, memsize := memsize2, permissions := p3, old_permissions := g }
        (0, some { a with first := new_region :: a.first })

/-- `as_define_stack(as, stackptr)`: the result is the return value, the value stored through
`stackptr`, and the address space afterwards. `USTACK_SIZE` is a constant of a header that is
not among the source files and is taken as an argument. -/
def as_define_stack (USTACK_SIZE : Nat) (as : Option addrspace) (kmalloc_node : Option Nat) :
    Nat × Nat × Option addrspace :=
  let stackptr := USERSTACK
  let r := as_define_region as ((stackptr + (2 ^ 32 - USTACK_SIZE % 2 ^ 32)) % 2 ^ 32)
    (USTACK_SIZE % 2 ^ 32) 1 1 0 kmalloc_node
  (r.1, stackptr, r.2)

/-- Loop body of `as_prepare_load`: `old_permissions = permissions; permissions |= PF_W`. -/
def prepare_region (curr : region) : region :=
  { curr with old_permissions := curr.permissions, permissions := curr.permissions ||| PF_W }

/-- `as_prepare_load(as)`: save each region's permissions and add the write bit. -/
def as_prepare_load (as : Option addrspace) : Nat × Option addrspace :=
  match as with
  | none => (EFAULT, none)
  | some a => (0, some { a with first := a.first.map prepare_region })

/-- The region search loop of `insert_pte` and `as_complete_load`: the first node whose
range test `vaddr >= base_addr && vaddr < base_addr + memsize` (32-bit sum) holds, or
`none` when the loop leaves the chain with `curr == NULL`. -/
def find_region : List region → Nat → Option region
  | [], _ => none
  | curr :: rest, vaddr =>
    if vaddr ≥ curr.base_addr ∧ vaddr < (curr.base_addr + curr.memsize) % 2 ^ 32 then some curr
    else find_region rest vaddr

/-- The virtual address `as_complete_load` composes for slot `j` of the table at directory
slot `i`: `pd_index = i << 21`, `pt_index = j << 12`, `vaddr = pd_index | pt_index`, the
shifts being 32-bit shifts. -/
def slot_vaddr (i j : Nat) : Nat :=
  let pd_index := (i <<< 21) % 2 ^ 32
  let pt_index := (j <<< 12) % 2 ^ 32
  pd_index ||| pt_index

/-- Body of the inner loop of `as_complete_load` for slot `j` of the table at directory
slot `i`; `none` is the dereference of `curr == NULL`. -/
def complete_load_slot (first : List region) (i : Nat) (t : Nat → Nat) (j : Nat) :
    Option (Nat → Nat) :=
  if t j ≠ PTE_UNALLOCATED then
    let vaddr := slot_vaddr i j
    match find_region first vaddr with
    | none => none
    | some curr =>
      if curr.old_permissions &&& PF_W = 0 then
        let w := (t j &&& PAGE_FRAME) &&& (0xFFFFFFFF - PF_W)
        some (Function.update t j (w ||| TLBLO_VALID))
      else some t
  else some t

/-- Inner loop of `as_complete_load`: slots `0 .. NUM_PT_ENTRY - 1` of one table. -/
def complete_load_table (first : List region) (i : Nat) (t : Nat → Nat) : Option (Nat → Nat) :=
  (List.range NUM_PT_ENTRY).foldlM (fun t1 j => complete_load_slot first i t1 j) t

/-- Body of the outer loop of `as_complete_load` for directory slot `i`. -/
def complete_load_entry (first : List region) (pt : Nat → Option (Nat → Nat)) (i : Nat) :
    Option (Nat → Option (Nat → Nat)) :=
  match pt i with
  | none => some pt
  | some t => (complete_load_table first i t).map (fun t1 => Function.update pt i (some t1))

/-- Outer loop of `as_complete_load`: directory slots `0 .. NUM_PD_ENTRY - 1`. -/
def complete_load_walk (first : List region) (pt : Nat → Option (Nat → Nat)) :
    Option (Nat → Option (Nat → Nat)) :=
  (List.range NUM_PD_ENTRY).foldlM (fun pt1 i => complete_load_entry first pt1 i) pt

/-- Second loop of `as_complete_load`: restore the write bit from `old_permissions`. -/
def restore_permissions (curr : region) : region :=
  if curr.old_permissions &&& PF_W ≠ 0 then
    { curr with permissions := curr.permissions ||| PF_W }
  else
    { curr with permissions := curr.permissions &&& (0xFFFFFFFF - PF_W) }

/-- `as_complete_load(as)`: `none` is a null dereference (null directory, or a region search
that ends at `NULL`); otherwise the return value and the address space afterwards.
`as_activate` has an empty body and changes nothing. -/
def as_complete_load (as : Option addrspace) : Option (Nat × Option addrspace) :=
  match as with
  | none => some (EFAULT, none)
  | some a =>
    match a.pagetable with
    | none => none
    | some pt =>
      match complete_load_walk a.first pt with
      | none => none
      | some pt1 =>
        some (0, some { first := a.first.map restore_permissions, pagetable := some pt1 })

/-- `as_create()`: `kmalloc_as` tells whether the allocation of the envelope succeeds;
`kmalloc_dir` is what the allocation of the directory gives, `none` for failure and
`some mem` for a block whose slots initially hold `mem`. The loop stores `NULL` in the
slots below `NUM_PT_ENTRY`. The result is `none` for a `NULL` return. -/
def as_create (kmalloc_as : Bool) (kmalloc_dir : Option (Nat → Option (Nat → Nat))) :
    Option addrspace :=
  if kmalloc_as = false then none
  else
    match kmalloc_dir with
    | none => none
    | some mem =>
      some { first := [], pagetable := some (fun i => if i < NUM_PT_ENTRY then none else mem i) }

/-! ## Page table and fault handler (`vm.c`) -/

/-- `lookup_pt(as, vaddr)`: `none` is the dereference of a null directory pointer. -/
def lookup_pt (as : addrspace) (vaddr : Nat) : Option Nat :=
  let pd_index := get_first_10_bits vaddr
  let pt_index := get_middle_10_bits vaddr
  if pd_index ≥ NUM_PD_ENTRY ∨ pt_index ≥ NUM_PT_ENTRY then some 0xFFFFFFFF
  else
    match as.pagetable with
    | none => none
    | some pt =>
      match pt pd_index with
      | none => some PTE_UNALLOCATED
      | some t =>
        if t pt_index = PTE_UNALLOCATED then some PTE_UNALLOCATED
        else some (t pt_index &&& PAGE_FRAME)

/-- The `while` loop of `lookup_region`: at the first node whose range holds `vaddr`, the
permission check for the fault type; `EFAULT` when the chain ends. -/
def lookup_region_scan (vaddr : Nat) (faulttype : Int) : List region → Nat
  | [] => EFAULT
  | curr :: rest =>
    if vaddr ≥ curr.base_addr ∧ vaddr < (curr.base_addr + curr.memsize) % 2 ^ 32 then
      if faulttype = VM_FAULT_READ then
        (if curr.permissions &&& PF_R = 0 then EPERM else 0)
      else if faulttype = VM_FAULT_WRITE then
        (if curr.permissions &&& PF_W = 0 then EPERM else 0)
      else EINVAL
    else lookup_region_scan vaddr faulttype rest

/-- `lookup_region(as, vaddr, faulttype)`. -/
def lookup_region (as : addrspace) (vaddr : Nat) (faulttype : Int) : Nat :=
  lookup_region_scan vaddr faulttype as.first

/-- The first step of `insert_pte` on the directory slot: a table already there is kept; for
a null slot a table is allocated and every slot of it set to the sentinel, or the result is
`none` when that allocation fails. -/
def table_or_fresh (slot : Option (Nat → Nat)) (kmalloc_table : Bool) : Option (Nat → Nat) :=
  match slot with
  | some t => some t
  | none => if kmalloc_table then some (fun _ => PTE_UNALLOCATED) else none

/-- The word `insert_pte` stores for the region `curr` it found: `paddr | TLBLO_DIRTY` when
`curr->permissions & PF_W`, and in both cases `| TLBLO_VALID`. -/
def compose_pte (curr : region) (paddr : Nat) : Nat :=
  let paddr1 := if curr.permissions &&& PF_W ≠ 0 then paddr ||| TLBLO_DIRTY else paddr
  paddr1 ||| TLBLO_VALID

/-- `insert_pte(as, vaddr, paddr)`: `kmalloc_table` tells whether the allocation of a
second-level table succeeds when it is attempted. `none` is a null dereference (null
directory pointer, or `curr->permissions` with `curr == NULL`); otherwise the return value
and the address space afterwards. -/
def insert_pte (as : addrspace) (vaddr paddr : Nat) (kmalloc_table : Bool) :
    Option (Nat × addrspace) :=
  let pd_index := get_pd_bits vaddr
  let pt_index := get_pt_bits vaddr
  if pd_index ≥ NUM_PD_ENTRY ∨ pt_index ≥ NUM_PT_ENTRY then some (EFAULT, as)
  else
    match as.pagetable with
    | none => none
    | some pt =>
      match table_or_fresh (pt pd_index) kmalloc_table with
      | none => some (ENOMEM, as)
      | some t =>
        if t pt_index ≠ PTE_UNALLOCATED then
          some (EFAULT, { as with pagetable := some (Function.update pt pd_index (some t)) })
        else
          match find_region as.first vaddr with
          | none => none
          | some curr =>
            let t1 := Function.update t pt_index (compose_pte curr paddr)
            some (0, { as with pagetable := some (Function.update pt pd_index (some t1)) })

/-- What one call of `vm_fault` returns and does: return value, the current address space
afterwards, the addresses obtained from `alloc_kpages`, the pages cleared with `bzero`, and
the `(entryhi, entrylo)` pairs passed to `tlb_random` by `load_tlb_entry`, in call order. -/
structure fault_effects where
  result : Nat
  as : Option addrspace
  frames : List Nat
  zeroed : List Nat
  tlb : List (Nat × Nat)

/-- Read `as->pagetable[pd_index][pt_index]`; `none` when one of the pointers is null. -/
def read_slot (as : addrspace) (pd_index pt_index : Nat) : Option Nat :=
  match as.pagetable with
  | none => none
  | some pt =>
    match pt pd_index with
    | none => none
    | some t => some (t pt_index)

/-- `vm_fault(faulttype, faultaddress)`. `curproc = none` is the null `curproc`;
`proc_getas()` is `p_addrspace` of the current process. `alloc_kpages` is what
`alloc_kpages(1)` returns when it is called (0 for failure) and `kmalloc_table` tells whether
the allocation of a second-level table succeeds when it is attempted. `none` is a null
dereference. -/
def vm_fault (curproc : Option proc) (faulttype : Int) (faultaddress : Nat)
    (alloc_kpages : Nat) (kmalloc_table : Bool) : Option fault_effects :=
  match curproc with
  | none => some { result := EFAULT, as := none, frames := [], zeroed := [], tlb := [] }
  | some p =>
    let quiet (code : Nat) : Option fault_effects :=
      some { result := code, as := p.p_addrspace, frames := [], zeroed := [], tlb := [] }
    if faulttype = VM_FAULT_READONLY then quiet EFAULT
    else if ¬ (faulttype = VM_FAULT_WRITE ∨ faulttype = VM_FAULT_READ) then quiet EINVAL
    else
      match p.p_addrspace with
      | none => quiet EFAULT
      | some as =>
        if as.pagetable.isNone then quiet EFAULT
        else if as.first.isEmpty then quiet EFAULT
        else
          let pd_index := get_pd_bits faultaddress
          let pt_index := get_pt_bits faultaddress
          match lookup_pt as faultaddress with
          | none => none
          | some found =>
            if found ≠ PTE_UNALLOCATED then
              match read_slot as pd_index pt_index with
              | none => none
              | some entrylo =>
                some { result := 0, as := some as, frames := [], zeroed := [],
                       tlb := [(faultaddress &&& PAGE_FRAME, entrylo)] }
            else if lookup_region as faultaddress faulttype = EFAULT then quiet EFAULT
            else
              let new_vaddr := alloc_kpages
              if new_vaddr = 0 then quiet ENOMEM
              else
                let paddr := KVADDR_TO_PADDR new_vaddr &&& PAGE_FRAME
                match insert_pte as faultaddress paddr kmalloc_table with
                | none => none
                | some (_, as1) =>
                  match read_slot as1 pd_index pt_index with
                  | none => none
                  | some entrylo =>
                    some { result := 0, as := some as1, frames := [new_vaddr],
                           zeroed := [new_vaddr],
                           tlb := [(faultaddress &&& PAGE_FRAME, entrylo)] }

/-! ## Teardown (`addrspace.c`) -/

/-- Modelled from the spec: `PADDR_TO_KVADDR` maps a physical address into the kernel window
by adding `MIPS_KSEG0`, in 32-bit arithmetic (machine/vm.h is not among the source files). -/
def PADDR_TO_KVADDR (paddr : Nat) : Nat := (paddr + MIPS_KSEG0) % 2 ^ 32

/-- Inner loop of `as_destroy` over one second-level table: the arguments of the
`free_kpages` calls, `PADDR_TO_KVADDR(as->pagetable[i][j]) & PAGE_FRAME` for each slot `j`
that does not hold the sentinel, in loop order. -/
def destroy_table (t : Nat → Nat) : List Nat :=
  ((List.range NUM_PT_ENTRY).filter (fun j => decide (t j ≠ PTE_UNALLOCATED))).map
    (fun j => PADDR_TO_KVADDR (t j) &&& PAGE_FRAME)

/-- Body of the outer loop of `as_destroy` for one directory slot: nothing for a null slot,
the inner loop for a table. -/
def destroy_entry (slot : Option (Nat → Nat)) : List Nat :=
  match slot with
  | none => []
  | some t => destroy_table t

/-- What `as_destroy` does: the arguments of its `free_kpages` calls in call order, the
directory slots whose table it passes to `kfree`, and the number of region nodes
`free_regions` passes to `kfree`. -/
structure destroy_effects where
  free_kpages : List Nat
  kfree_tables : List Nat
  kfree_regions : Nat

/-- `as_destroy(as)`: `none` is the dereference of a null directory pointer. -/
def as_destroy (as : addrspace) : Option destroy_effects :=
  match as.pagetable with
  | none => none
  | some pt =>
    some { free_kpages := (List.range NUM_PD_ENTRY).flatMap (fun i => destroy_entry (pt i)),
           kfree_tables := (List.range NUM_PD_ENTRY).filter (fun i => (pt i).isSome),
           kfree_regions := as.first.length }

/-! ## Notions of the specification -/

/-- The page-aligned base of a request: `vaddr` rounded down to a multiple of 4096. -/
def aligned_base (vaddr : Nat) : Nat := vaddr / 4096 * 4096

/-- The page-rounded size of a request as an unbounded integer:
`memsize + (vaddr mod 4096)` rounded up to a multiple of 4096. -/
def aligned_size (vaddr memsize : Nat) : Nat := (memsize + vaddr % 4096 + 4095) / 4096 * 4096

/-- The permission word the spec asks for: `(R ? PF_R : 0) | (W ? PF_W : 0) | (X ? PF_X : 0)`. -/
def requested_permissions (readable writeable executable : Int) : Nat :=
  (if readable ≠ 0 then PF_R else 0) ||| (if writeable ≠ 0 then PF_W else 0) |||
    (if executable ≠ 0 then PF_X else 0)

/-- A region is well placed: page-aligned base and size, end at most the kernel boundary. -/
def region_ok (r : region) : Prop :=
  4096 ∣ r.base_addr ∧ 4096 ∣ r.memsize ∧ r.base_addr + r.memsize ≤ MIPS_KSEG0

/-- The intervals `[base, base + size)` of two regions have no address in common. -/
def regions_disjoint (r s : region) : Prop :=
  ∀ x, ¬ (r.base_addr ≤ x ∧ x < r.base_addr + r.memsize ∧
          s.base_addr ≤ x ∧ x < s.base_addr + s.memsize)

/-- The region-list invariant: every region is well placed and any two regions at different
positions of the list are disjoint. -/
def region_list_inv (l : List region) : Prop :=
  (∀ r ∈ l, region_ok r) ∧ l.Pairwise regions_disjoint

/-- Address spaces reachable from `as_create` by calls of `as_define_region`,
`as_define_stack`, `as_prepare_load`, `as_complete_load` and `vm_fault` that return, with
32-bit arguments. `USTACK_SIZE` is the stack-size constant. -/
inductive reachable (USTACK_SIZE : Nat) : addrspace → Prop
  | create (kmalloc_as : Bool) (kmalloc_dir : Option (Nat → Option (Nat → Nat)))
      (a : addrspace) : as_create kmalloc_as kmalloc_dir = some a → reachable USTACK_SIZE a
  | define_region (a a1 : addrspace) (vaddr memsize : Nat)
      (readable writeable executable : Int) (k : Option Nat) :
      reachable USTACK_SIZE a → vaddr < 2 ^ 32 → memsize < 2 ^ 32 →
      (as_define_region (some a) vaddr memsize readable writeable executable k).2 = some a1 →
      reachable USTACK_SIZE a1
  | define_stack (a a1 : addrspace) (k : Option Nat) :
      reachable USTACK_SIZE a →
      (as_define_stack USTACK_SIZE (some a) k).2.2 = some a1 → reachable USTACK_SIZE a1
  | prepare_load (a a1 : addrspace) :
      reachable USTACK_SIZE a → (as_prepare_load (some a)).2 = some a1 →
      reachable USTACK_SIZE a1
  | complete_load (a a1 : addrspace) (ret : Nat) :
      reachable USTACK_SIZE a → as_complete_load (some a) = some (ret, some a1) →
      reachable USTACK_SIZE a1
  | fault (a a1 : addrspace) (faulttype : Int) (faultaddress alloc_kpages : Nat)
      (kmalloc_table : Bool) (out : fault_effects) :
      reachable USTACK_SIZE a → faultaddress < 2 ^ 32 →
      vm_fault (some ⟨some a⟩) faulttype faultaddress alloc_kpages kmalloc_table = some out →
      out.as = some a1 → reachable USTACK_SIZE a1

/-- One call, on an address space, of `as_define_region`, `as_define_stack`,
`as_prepare_load`, `as_complete_load` or `vm_fault` that returns, with 32-bit arguments:
`as_step USTACK_SIZE a a1` when such a call takes `a` to `a1`. -/
inductive as_step (USTACK_SIZE : Nat) : addrspace → addrspace → Prop
  | define_region (a a1 : addrspace) (vaddr memsize : Nat)
      (readable writeable executable : Int) (k : Option Nat) :
      vaddr < 2 ^ 32 → memsize < 2 ^ 32 →
      (as_define_region (some a) vaddr memsize readable writeable executable k).2 = some a1 →
      as_step USTACK_SIZE a a1
  | define_stack (a a1 : addrspace) (k : Option Nat) :
      (as_define_stack USTACK_SIZE (some a) k).2.2 = some a1 → as_step USTACK_SIZE a a1
  | prepare_load (a a1 : addrspace) :
      (as_prepare_load (some a)).2 = some a1 → as_step USTACK_SIZE a a1
  | complete_load (a a1 : addrspace) (ret : Nat) :
      as_complete_load (some a) = some (ret, some a1) → as_step USTACK_SIZE a a1
  | fault (a a1 : addrspace) (faulttype : Int) (faultaddress alloc_kpages : Nat)
      (kmalloc_table : Bool) (out : fault_effects) :
      faultaddress < 2 ^ 32 →
      vm_fault (some ⟨some a⟩) faulttype faultaddress alloc_kpages kmalloc_table = some out →
      out.as = some a1 → as_step USTACK_SIZE a a1

/-- Address `v` lies in the interval `[base, base + size)` of region `r`. -/
def in_region (r : region) (v : Nat) : Prop :=
  r.base_addr ≤ v ∧ v < r.base_addr + r.memsize

/-- Every installed PTE's page lies in some region: for each slot `(i, j)` of an existing
second-level table that does not hold the sentinel, the page address `slot_vaddr i j` lies
in a region of the list. -/
def ptes_in_regions (first : List region) (pt : Nat → Option (Nat → Nat)) : Prop :=
  ∀ i j t, i < NUM_PD_ENTRY → j < NUM_PT_ENTRY → pt i = some t → t j ≠ PTE_UNALLOCATED →
    ∃ r ∈ first, in_region r (slot_vaddr i j)

/-- A sequence of `vm_fault` calls on the current address space, each of which returns:
`fault_sequence a b` when such a sequence leads from `a` to `b`. -/
inductive fault_sequence : addrspace → addrspace → Prop
  | nil (a : addrspace) : fault_sequence a a
  | snoc (a b c : addrspace) (faulttype : Int) (faultaddress alloc_kpages : Nat)
      (kmalloc_table : Bool) (out : fault_effects) :
      fault_sequence a b → faultaddress < 2 ^ 32 →
      vm_fault (some ⟨some b⟩) faulttype faultaddress alloc_kpages kmalloc_table = some out →
      out.as = some c → fault_sequence a c

/-- The region search succeeds at every installed slot of the table at directory slot `i`. -/
def table_searchable (first : List region) (i : Nat) (t : Nat → Nat) : Prop :=
  ∀ j, j < NUM_PT_ENTRY → t j ≠ PTE_UNALLOCATED →
    (find_region first (slot_vaddr i j)).isSome = true

/-- The region search succeeds at every installed slot of the page table. -/
def dir_searchable (first : List region) (pt : Nat → Option (Nat → Nat)) : Prop :=
  ∀ i, i < NUM_PD_ENTRY → ∀ t, pt i = some t → table_searchable first i t

/-- The word of page-table slot `(i, j)`: the stored word when directory slot `i` has a
second-level table, and the sentinel when it has none. A page has an installed PTE when
this is not the sentinel. -/
def slot_word (pt : Nat → Option (Nat → Nat)) (i j : Nat) : Nat :=
  match pt i with
  | none => PTE_UNALLOCATED
  | some t => t j

/-- The word `as_complete_load` leaves in an installed slot whose region search found
`curr`: frame bits with `TLBLO_VALID` when `curr->old_permissions` lacks `PF_W`, the stored
word otherwise. -/
def completed_word (curr : region) (w : Nat) : Nat :=
  if curr.old_permissions &&& PF_W = 0 then
    ((w &&& PAGE_FRAME) &&& (0xFFFFFFFF - PF_W)) ||| TLBLO_VALID
  else w

/-- How `as_complete_load` changes the word `w` of slot `(i, j)` into `w1`: a sentinel stays,
an installed word becomes `completed_word` of the region the search finds for the page. -/
def slot_completed (first : List region) (i j : Nat) (w w1 : Nat) : Prop :=
  (w = PTE_UNALLOCATED ∧ w1 = PTE_UNALLOCATED) ∨
  (w ≠ PTE_UNALLOCATED ∧
    ∃ curr, find_region first (slot_vaddr i j) = some curr ∧ w1 = completed_word curr w)

/-- How `as_complete_load` changes directory slot `i`: a null slot stays null, a table stays
a table whose slots below `NUM_PT_ENTRY` are changed as `slot_completed` says and whose other
slots are untouched. -/
def entry_completed (first : List region) (i : Nat) (s s1 : Option (Nat → Nat)) : Prop :=
  (s = none ∧ s1 = none) ∨
  (∃ t t1, s = some t ∧ s1 = some t1 ∧
    (∀ j, j < NUM_PT_ENTRY → slot_completed first i j (t j) (t1 j)) ∧
    (∀ j, NUM_PT_ENTRY ≤ j → t1 j = t j))

instance region_ok_decidable (r : region) : Decidable (region_ok r) := by
  unfold region_ok; infer_instance

instance in_region_decidable (r : region) (v : Nat) : Decidable (in_region r v) := by
  unfold in_region; infer_instance

/-! ## Scenario states -/

/-- An empty page directory: every slot null. -/
def empty_dir : Nat → Option (Nat → Nat) := fun _ => none

/-- Scenario address space: the one region `[0x00400000, 0x00401000)` with R+X and no page
installed. -/
def text_as : addrspace :=
  { first := [⟨0x00400000, 0x1000, 5, 0⟩], pagetable := some empty_dir }

/-- Scenario address space: the one region `[0x00400000, 0x00402000)` with R+X and no page
installed. -/
def text2_as : addrspace :=
  { first := [⟨0x00400000, 0x2000, 5, 0⟩], pagetable := some empty_dir }

/-- Scenario address space: `text_as` after the page of `0x00400000` was installed with
frame `0x00010000`, valid and not writable. -/
def text_mapped_as : addrspace :=
  { first := [⟨0x00400000, 0x1000, 5, 0⟩],
    pagetable := some (Function.update empty_dir 2
      (some (Function.update (fun _ => PTE_UNALLOCATED) 0 0x00010200))) }

/-- Scenario address space: the one stack region `[0x7FFEE000, 0x80000000)` with R+W and no
page installed. -/
def stack_as : addrspace :=
  { first := [⟨0x7FFEE000, 0x12000, 6, 0⟩], pagetable := some empty_dir }

/-- Scenario memory block: what the directory of an earlier address space leaves behind in
its two pages, slot 1023 still pointing to the table of the stack with the PTE `0x00020600`
in slot 511. -/
def stale_dir : Nat → Option (Nat → Nat) :=
  Function.update empty_dir 1023
    (some (Function.update (fun _ => PTE_UNALLOCATED) 511 0x00020600))

/-- Scenario address space: what `as_create` returns when `kmalloc` hands it `stale_dir`. -/
def stale_as : addrspace :=
  { first := [], pagetable := some (fun i => if i < NUM_PT_ENTRY then none else stale_dir i) }

/-- Scenario address space of the load transition: region `[0x00400000, 0x00402000)` R+X
after `as_prepare_load` (permissions R+W+X, saved R+X) and a WRITE fault on `0x00400000`
that installed frame `0x00010000` with `VALID` and `DIRTY`. -/
def loading_as : addrspace :=
  { first := [⟨0x00400000, 0x2000, 7, 5⟩],
    pagetable := some (Function.update empty_dir 2
      (some (Function.update (fun _ => PTE_UNALLOCATED) 0 0x00010600))) }

/-! ## Lemmas and theorems -/

theorem and_PAGE_FRAME (a : Nat) (h : a < 2 ^ 32) : a &&& PAGE_FRAME = a / 4096 * 4096 := by
  have hM : PAGE_FRAME = 2 ^ 12 * (2 ^ 20 - 1) := by decide
  have ha : a / 4096 * 4096 = 2 ^ 12 * (a >>> 12) := by
    rw [Nat.shiftRight_eq_div_pow]; omega
  rw [hM, ha]
  apply Nat.eq_of_testBit_eq
  intro i
  rw [Nat.testBit_and, Nat.testBit_mul_pow_two, Nat.testBit_mul_pow_two,
    Nat.testBit_two_pow_sub_one, Nat.testBit_shiftRight]
  by_cases h12 : 12 ≤ i
  · have e : 12 + (i - 12) = i := by omega
    rw [e]
    by_cases h32 : i < 32
    · have : i - 12 < 20 := by omega
      simp [h12, this]
    · have hlt : a < 2 ^ i := lt_of_lt_of_le h (Nat.pow_le_pow_right (by decide) (by omega))
      simp [Nat.testBit_lt_two_pow hlt]
  · simp [h12]

theorem and_offset_mask (a : Nat) : a &&& (0xFFFFFFFF - PAGE_FRAME) = a % 4096 := by
  have hM : 0xFFFFFFFF - PAGE_FRAME = 2 ^ 12 - 1 := by decide
  rw [hM, Nat.and_pow_two_sub_one_eq_mod]

theorem check_region_scan_cases (v e : Nat) (l : List region) :
    check_region_scan v e l = 0 ∨ check_region_scan v e l = EINVAL := by
  induction l with
  | nil => left; rfl
  | cons c rest ih =>
    unfold check_region_scan
    by_cases h : v < (c.base_addr + c.memsize) % 2 ^ 32 ∧ e > c.base_addr
    · right; exact if_pos h
    · rw [show (if v < (c.base_addr + c.memsize) % 2 ^ 32 ∧ e > c.base_addr then EINVAL
        else check_region_scan v e rest) = check_region_scan v e rest from if_neg h]
      exact ih

theorem check_region_scan_zero (v e : Nat) (l : List region)
    (h : ∀ r ∈ l, ¬ (v < (r.base_addr + r.memsize) % 2 ^ 32 ∧ e > r.base_addr)) :
    check_region_scan v e l = 0 := by
  induction l with
  | nil => rfl
  | cons c rest ih =>
    unfold check_region_scan
    have hc := h c (List.mem_cons_self _ _)
    exact (if_neg hc).trans (ih (fun r hr => h r (List.mem_cons_of_mem _ hr)))

theorem check_region_scan_hit (v e : Nat) (l : List region) (r : region) (hr : r ∈ l)
    (h : v < (r.base_addr + r.memsize) % 2 ^ 32 ∧ e > r.base_addr) :
    check_region_scan v e l = EINVAL := by
  induction l with
  | nil => cases hr
  | cons c rest ih =>
    unfold check_region_scan
    by_cases hc : v < (c.base_addr + c.memsize) % 2 ^ 32 ∧ e > c.base_addr
    · exact if_pos hc
    · refine (if_neg hc).trans ?_
      rcases List.mem_cons.1 hr with rfl | hr'
      · exact absurd h hc
      · exact ih hr'

theorem check_region_scan_zero_iff (v e : Nat) (l : List region) :
    check_region_scan v e l = 0 ↔
      ∀ r ∈ l, ¬ (v < (r.base_addr + r.memsize) % 2 ^ 32 ∧ e > r.base_addr) := by
  constructor
  · intro h r hr hc
    rw [check_region_scan_hit v e l r hr hc] at h
    exact absurd h (by decide)
  · exact check_region_scan_zero v e l

/-- The size the code computes is the unbounded page-rounded size reduced modulo `2 ^ 32`. -/
theorem code_size_eq (vaddr memsize : Nat) :
    (((memsize + (vaddr &&& (0xFFFFFFFF - PAGE_FRAME))) % 2 ^ 32 + PAGE_SIZE - 1) % 2 ^ 32)
      &&& PAGE_FRAME = aligned_size vaddr memsize % 2 ^ 32 := by
  rw [and_offset_mask, and_PAGE_FRAME _ (Nat.mod_lt _ (by decide))]
  unfold aligned_size PAGE_SIZE
  omega

theorem code_permissions_eq (readable writeable executable : Int) :
    (if executable ≠ 0 then
        (if writeable ≠ 0 then (if readable ≠ 0 then (0:Nat) ||| PF_R else 0) ||| PF_W
          else (if readable ≠ 0 then (0:Nat) ||| PF_R else 0)) ||| PF_X
      else (if writeable ≠ 0 then (if readable ≠ 0 then (0:Nat) ||| PF_R else 0) ||| PF_W
          else (if readable ≠ 0 then (0:Nat) ||| PF_R else 0)))
      = requested_permissions readable writeable executable := by
  unfold requested_permissions
  by_cases hr : readable = 0 <;> by_cases hw : writeable = 0 <;> by_cases hx : executable = 0 <;>
    simp [hr, hw, hx]

/-- Unfolding of `as_define_region` on a non-null address space and 32-bit arguments. -/
theorem as_define_region_unfold (a : addrspace) (vaddr memsize : Nat)
    (readable writeable executable : Int) (k : Option Nat) (hv : vaddr < 2 ^ 32) :
    as_define_region (some a) vaddr memsize readable writeable executable k =
      if check_region a (aligned_base vaddr) (aligned_size vaddr memsize % 2 ^ 32) ≠ 0 then
        (check_region a (aligned_base vaddr) (aligned_size vaddr memsize % 2 ^ 32), some a)
      else
        match k with
        | none => (ENOMEM, some a)
        | some g =>
          (0, some { a with first :=
            { base_addr := aligned_base vaddr,
              memsize := aligned_size vaddr memsize % 2 ^ 32,
              permissions := requested_permissions readable writeable executable,
              old_permissions := g } :: a.first }) := by
  unfold as_define_region
  simp only [code_size_eq, and_PAGE_FRAME vaddr hv, code_permissions_eq]
  rfl

theorem check_region_no_wrap (a : addrspace) (base size : Nat) (h : base + size < 2 ^ 32) :
    check_region a base size =
      if base + size > MIPS_KSEG0 then EFAULT
      else check_region_scan base (base + size) a.first := by
  unfold check_region
  rw [Nat.mod_eq_of_lt h, if_neg (by omega)]

theorem check_region_wrap (a : addrspace) (base size : Nat) (hb : base < 2 ^ 32)
    (hs : size < 2 ^ 32) (h : 2 ^ 32 ≤ base + size) : check_region a base size = EINVAL := by
  unfold check_region
  rw [if_pos (by omega)]

theorem aligned_base_lt (vaddr : Nat) (hv : vaddr < 2 ^ 32) : aligned_base vaddr < 2 ^ 32 := by
  unfold aligned_base; omega

/-- The success case of `as_define_region` under the test its overlap loop applies: for a
non-null address space and 32-bit `vaddr`, `memsize`, with `base` the page-aligned base and
`size` the page-rounded size, if `base + size` does not overflow 32 bits,
`base + size <= MIPS_KSEG0`, every existing region ends at or below `base` or starts at or
above `base + size`, and the node allocation succeeds, then `as_define_region` returns 0,
the region list is the old list with one new node at the head carrying `base`, `size` and
the requested permission bits, and the old nodes and the page table are unchanged. For two
non-empty intervals the condition on the existing regions says exactly that they do not
overlap; for an empty interval it asks more than that. -/
theorem as_define_region_success (a : addrspace) (vaddr memsize : Nat)
    (readable writeable executable : Int) (g : Nat)
    (hv : vaddr < 2 ^ 32) (_hm : memsize < 2 ^ 32)
    (hno : aligned_base vaddr + aligned_size vaddr memsize < 2 ^ 32)
    (hk : aligned_base vaddr + aligned_size vaddr memsize ≤ MIPS_KSEG0)
    (hdis : ∀ r ∈ a.first,
      r.base_addr + r.memsize ≤ aligned_base vaddr ∨
      aligned_base vaddr + aligned_size vaddr memsize ≤ r.base_addr) :
    as_define_region (some a) vaddr memsize readable writeable executable (some g) =
      (0, some
        { first :=
            { base_addr := aligned_base vaddr,
              memsize := aligned_size vaddr memsize,
              permissions := requested_permissions readable writeable executable,
              old_permissions := g } :: a.first,
          pagetable := a.pagetable }) := by
  have hs : aligned_size vaddr memsize % 2 ^ 32 = aligned_size vaddr memsize :=
    Nat.mod_eq_of_lt (by omega)
  have hc : check_region a (aligned_base vaddr) (aligned_size vaddr memsize) = 0 := by
    rw [check_region_no_wrap a _ _ hno, if_neg (by omega)]
    apply check_region_scan_zero
    intro r hr hcon
    have hle : (r.base_addr + r.memsize) % 2 ^ 32 ≤ r.base_addr + r.memsize := Nat.mod_le _ _
    rcases hdis r hr with h1 | h1 <;> omega
  rw [as_define_region_unfold a vaddr memsize readable writeable executable _ hv, hs, hc]
  rfl

/-- Claim C2 at the request `vaddr = 0x00401000`, `memsize = 0`, R+X, on the address space
with the one region `[0x00400000, 0x00402000)`, the node allocation succeeding: the interval
`[0x00401000, 0x00401000)` of the request is empty, does not overflow, ends below
`MIPS_KSEG0` and has no address in common with the existing region, so the claim's premises
hold; yet `as_define_region` returns `EINVAL` instead of 0 and prepends no node, the
address space being the one passed in. -/
theorem as_define_region_empty_inside :
    aligned_base 0x401000 + aligned_size 0x401000 0 < 2 ^ 32 ∧
    aligned_base 0x401000 + aligned_size 0x401000 0 ≤ MIPS_KSEG0 ∧
    (∀ r ∈ [(⟨0x400000, 0x2000, 5, 0⟩ : region)], ∀ x,
      ¬ (aligned_base 0x401000 ≤ x ∧ x < aligned_base 0x401000 + aligned_size 0x401000 0 ∧
         r.base_addr ≤ x ∧ x < r.base_addr + r.memsize)) ∧
    (as_define_region (some ⟨[⟨0x400000, 0x2000, 5, 0⟩], some (fun _ => none)⟩)
      0x401000 0 1 0 1 (some 0)).1 = EINVAL ∧
    as_define_region (some ⟨[⟨0x400000, 0x2000, 5, 0⟩], some (fun _ => none)⟩)
      0x401000 0 1 0 1 (some 0) =
      (EINVAL, some ⟨[⟨0x400000, 0x2000, 5, 0⟩], some (fun _ => none)⟩) := by
  refine ⟨by decide, by decide, ?_, by rfl, by rfl⟩
  intro r _ x hx
  have h0 : aligned_size 0x401000 0 = 0 := by decide
  rw [h0] at hx
  omega

/-- Claim C3: when the page-aligned interval `[base, base + size)` of a request ends at or
below `MIPS_KSEG0` and has an address `x` in common with the interval of a region of the
list, `as_define_region` returns `EINVAL` and leaves the address space, hence the region
list, unchanged, whatever the allocator would do. -/
theorem as_define_region_overlap (a : addrspace) (vaddr memsize : Nat)
    (readable writeable executable : Int) (k : Option Nat)
    (hv : vaddr < 2 ^ 32) (_hm : memsize < 2 ^ 32)
    (hk : aligned_base vaddr + aligned_size vaddr memsize ≤ MIPS_KSEG0)
    (r : region) (hr : r ∈ a.first) (hrw : r.base_addr + r.memsize < 2 ^ 32)
    (x : Nat) (hx1 : aligned_base vaddr ≤ x)
    (hx2 : x < aligned_base vaddr + aligned_size vaddr memsize)
    (hx3 : r.base_addr ≤ x) (hx4 : x < r.base_addr + r.memsize) :
    as_define_region (some a) vaddr memsize readable writeable executable k = (EINVAL, some a) := by
  have hK : MIPS_KSEG0 = 2147483648 := rfl
  have hs : aligned_size vaddr memsize % 2 ^ 32 = aligned_size vaddr memsize :=
    Nat.mod_eq_of_lt (by omega)
  have hc : check_region a (aligned_base vaddr) (aligned_size vaddr memsize) = EINVAL := by
    rw [check_region_no_wrap a _ _ (by omega), if_neg (by omega)]
    apply check_region_scan_hit _ _ _ r hr
    rw [Nat.mod_eq_of_lt hrw]
    omega
  rw [as_define_region_unfold a vaddr memsize readable writeable executable _ hv, hs, hc]
  rfl

/-- Claim C4: when page-aligned base plus page-rounded size does not overflow 32 bits and
is greater than `MIPS_KSEG0`, `as_define_region` returns `EFAULT` and leaves the address
space unchanged, whatever regions exist. -/
theorem as_define_region_kernel (a : addrspace) (vaddr memsize : Nat)
    (readable writeable executable : Int) (k : Option Nat)
    (hv : vaddr < 2 ^ 32) (_hm : memsize < 2 ^ 32)
    (hno : aligned_base vaddr + aligned_size vaddr memsize < 2 ^ 32)
    (hk : MIPS_KSEG0 < aligned_base vaddr + aligned_size vaddr memsize) :
    as_define_region (some a) vaddr memsize readable writeable executable k = (EFAULT, some a) := by
  have hs : aligned_size vaddr memsize % 2 ^ 32 = aligned_size vaddr memsize :=
    Nat.mod_eq_of_lt (by omega)
  have hc : check_region a (aligned_base vaddr) (aligned_size vaddr memsize) = EFAULT := by
    rw [check_region_no_wrap a _ _ hno, if_pos hk]
  rw [as_define_region_unfold a vaddr memsize readable writeable executable _ hv, hs, hc]
  rfl

/-- The wrap-around test of `check_region` at work: when the page-rounded size itself fits
32 bits and base plus size does not, `as_define_region` returns `EINVAL` and changes
nothing. -/
theorem as_define_region_end_wraps (a : addrspace) (vaddr memsize : Nat)
    (readable writeable executable : Int) (k : Option Nat)
    (hv : vaddr < 2 ^ 32) (hs : aligned_size vaddr memsize < 2 ^ 32)
    (hw : 2 ^ 32 ≤ aligned_base vaddr + aligned_size vaddr memsize) :
    as_define_region (some a) vaddr memsize readable writeable executable k = (EINVAL, some a) := by
  have hc : check_region a (aligned_base vaddr) (aligned_size vaddr memsize) = EINVAL :=
    check_region_wrap a _ _ (aligned_base_lt vaddr hv) hs hw
  rw [as_define_region_unfold a vaddr memsize readable writeable executable _ hv,
    Nat.mod_eq_of_lt hs, hc]
  rfl

/-- Claim C5 at `vaddr = 0x1001`, `memsize = 0xFFFFFFFF` on an empty region list: base plus
size as unbounded integers is at least `2 ^ 32`, yet `as_define_region` returns 0 and adds
the region `[0x1000, 0x1000)` of size 0, because the size has already wrapped to 0 when
`check_region` tests the end address. -/
theorem as_define_region_size_wraps :
    2 ^ 32 ≤ aligned_base 0x1001 + aligned_size 0x1001 0xFFFFFFFF ∧
    (as_define_region (some ⟨[], some (fun _ => none)⟩) 0x1001 0xFFFFFFFF 1 0 0 (some 0)).1 = 0 ∧
    ((as_define_region (some ⟨[], some (fun _ => none)⟩) 0x1001 0xFFFFFFFF 1 0 0 (some 0)).2.map
      (fun a => a.first)) = some [⟨0x1000, 0, 4, 0⟩] := by
  refine ⟨by decide, by rfl, by rfl⟩

theorem region_list_inv_map (f : region → region)
    (hf : ∀ r, (f r).base_addr = r.base_addr ∧ (f r).memsize = r.memsize)
    (l : List region) (h : region_list_inv l) : region_list_inv (l.map f) := by
  constructor
  · intro r hr
    obtain ⟨s, hs, rfl⟩ := List.mem_map.1 hr
    have := h.1 s hs
    unfold region_ok at *
    rw [(hf s).1, (hf s).2]; exact this
  · rw [List.pairwise_map]
    refine h.2.imp ?_
    intro r s hrs
    unfold regions_disjoint at *
    rw [(hf r).1, (hf r).2, (hf s).1, (hf s).2]; exact hrs

theorem restore_permissions_fields (r : region) :
    (restore_permissions r).base_addr = r.base_addr ∧
    (restore_permissions r).memsize = r.memsize ∧
    (restore_permissions r).old_permissions = r.old_permissions := by
  unfold restore_permissions
  split <;> exact ⟨rfl, rfl, rfl⟩

theorem insert_pte_first (as as1 : addrspace) (vaddr paddr code : Nat) (k : Bool)
    (h : insert_pte as vaddr paddr k = some (code, as1)) : as1.first = as.first := by
  unfold insert_pte at h
  dsimp only at h
  by_cases hr : get_pd_bits vaddr ≥ NUM_PD_ENTRY ∨ get_pt_bits vaddr ≥ NUM_PT_ENTRY
  · rw [if_pos hr] at h; cases h; rfl
  · rw [if_neg hr] at h
    cases hpt : as.pagetable with
    | none => rw [hpt] at h; cases h
    | some pt =>
      rw [hpt] at h
      dsimp only at h
      cases hf : table_or_fresh (pt (get_pd_bits vaddr)) k with
      | none => rw [hf] at h; cases h; rfl
      | some t =>
        rw [hf] at h
        dsimp only at h
        by_cases hs : t (get_pt_bits vaddr) ≠ PTE_UNALLOCATED
        · rw [if_pos hs] at h; cases h; rfl
        · rw [if_neg hs] at h
          cases hfr : find_region as.first vaddr with
          | none => rw [hfr] at h; cases h
          | some curr => rw [hfr] at h; cases h; rfl

theorem vm_fault_first (a a1 : addrspace) (faulttype : Int) (faultaddress alloc : Nat)
    (k : Bool) (out : fault_effects)
    (h : vm_fault (some ⟨some a⟩) faulttype faultaddress alloc k = some out)
    (ha : out.as = some a1) : a1.first = a.first := by
  unfold vm_fault at h
  dsimp only at h
  by_cases h1 : faulttype = VM_FAULT_READONLY
  · rw [if_pos h1] at h; cases h; cases ha; rfl
  rw [if_neg h1] at h
  by_cases h2 : ¬ (faulttype = VM_FAULT_WRITE ∨ faulttype = VM_FAULT_READ)
  · rw [if_pos h2] at h; cases h; cases ha; rfl
  rw [if_neg h2] at h
  by_cases h3 : a.pagetable.isNone = true
  · rw [if_pos h3] at h; cases h; cases ha; rfl
  rw [if_neg h3] at h
  by_cases h4 : a.first.isEmpty = true
  · rw [if_pos h4] at h; cases h; cases ha; rfl
  rw [if_neg h4] at h
  cases h5 : lookup_pt a faultaddress with
  | none => rw [h5] at h; cases h
  | some found =>
    rw [h5] at h
    dsimp only at h
    by_cases h6 : found ≠ PTE_UNALLOCATED
    · rw [if_pos h6] at h
      cases h7 : read_slot a (get_pd_bits faultaddress) (get_pt_bits faultaddress) with
      | none => rw [h7] at h; cases h
      | some w => rw [h7] at h; cases h; cases ha; rfl
    rw [if_neg h6] at h
    by_cases h8 : lookup_region a faultaddress faulttype = EFAULT
    · rw [if_pos h8] at h; cases h; cases ha; rfl
    rw [if_neg h8] at h
    by_cases h9 : alloc = 0
    · rw [if_pos h9] at h; cases h; cases ha; rfl
    rw [if_neg h9] at h
    cases h10 : insert_pte a faultaddress (KVADDR_TO_PADDR alloc &&& PAGE_FRAME) k with
    | none => rw [h10] at h; cases h
    | some res =>
      obtain ⟨code, as1⟩ := res
      rw [h10] at h
      dsimp only at h
      cases h11 : read_slot as1 (get_pd_bits faultaddress) (get_pt_bits faultaddress) with
      | none => rw [h11] at h; cases h
      | some w =>
        rw [h11] at h; cases h; cases ha
        exact insert_pte_first _ _ _ _ _ _ h10

theorem check_region_zero (a : addrspace) (base size : Nat) (hb : base < 2 ^ 32)
    (hs : size < 2 ^ 32) (h : check_region a base size = 0) :
    base + size ≤ MIPS_KSEG0 ∧
    ∀ r ∈ a.first, ¬ (base < (r.base_addr + r.memsize) % 2 ^ 32 ∧ base + size > r.base_addr) := by
  by_cases hw : 2 ^ 32 ≤ base + size
  · rw [check_region_wrap a base size hb hs hw] at h
    exact absurd h (by decide)
  · have hlt : base + size < 2 ^ 32 := by omega
    rw [check_region_no_wrap a base size hlt] at h
    by_cases hk : base + size > MIPS_KSEG0
    · rw [if_pos hk] at h
      exact absurd h (by decide)
    · rw [if_neg hk] at h
      exact ⟨by omega, (check_region_scan_zero_iff _ _ _).1 h⟩

theorem as_define_region_inv (a a1 : addrspace) (vaddr memsize : Nat)
    (readable writeable executable : Int) (k : Option Nat)
    (hv : vaddr < 2 ^ 32) (hinv : region_list_inv a.first)
    (h : (as_define_region (some a) vaddr memsize readable writeable executable k).2 = some a1) :
    region_list_inv a1.first := by
  rw [as_define_region_unfold a vaddr memsize readable writeable executable k hv] at h
  by_cases hc : check_region a (aligned_base vaddr) (aligned_size vaddr memsize % 2 ^ 32) ≠ 0
  · rw [if_pos hc] at h
    cases h; exact hinv
  · rw [if_neg hc] at h
    cases k with
    | none => cases h; exact hinv
    | some g =>
      cases h
      have hc0 := not_not.1 hc
      have hsz : aligned_size vaddr memsize % 2 ^ 32 < 2 ^ 32 := Nat.mod_lt _ (by decide)
      obtain ⟨hk, hscan⟩ := check_region_zero a _ _ (aligned_base_lt vaddr hv) hsz hc0
      have hK : MIPS_KSEG0 = 2147483648 := rfl
      constructor
      · intro r hr
        rcases List.mem_cons.1 hr with rfl | hr'
        · refine ⟨?_, ?_, hk⟩
          · show 4096 ∣ aligned_base vaddr
            unfold aligned_base; omega
          · show 4096 ∣ aligned_size vaddr memsize % 2 ^ 32
            unfold aligned_size; omega
        · exact hinv.1 r hr'
      · refine List.Pairwise.cons ?_ hinv.2
        intro r hr x hx
        have hro := hinv.1 r hr
        have hs := hscan r hr
        unfold region_ok at hro
        rw [Nat.mod_eq_of_lt (by omega)] at hs
        dsimp only at hx
        omega

/-- Claim C6: in every address space reachable from `as_create` by calls of
`as_define_region`, `as_define_stack`, `as_prepare_load`, `as_complete_load` and `vm_fault`,
every region has a base and a size that are multiples of 4096 and ends at or below
`MIPS_KSEG0`, and any two regions of the list have disjoint intervals. -/
theorem reachable_region_list_inv (USTACK_SIZE : Nat) (a : addrspace)
    (h : reachable USTACK_SIZE a) : region_list_inv a.first := by
  induction h with
  | create kas kdir a hc =>
    unfold as_create at hc
    split at hc
    · cases hc
    · split at hc
      · cases hc
      · cases hc
        exact ⟨fun r hr => absurd hr (List.not_mem_nil r), List.Pairwise.nil⟩
  | define_region a a1 vaddr memsize r w x k _ hv _ hd ih =>
    exact as_define_region_inv a a1 vaddr memsize r w x k hv ih hd
  | define_stack a a1 k _ hd ih =>
    unfold as_define_stack at hd
    exact as_define_region_inv a a1 _ _ 1 1 0 k (Nat.mod_lt _ (by decide)) ih hd
  | prepare_load a a1 _ hp ih =>
    unfold as_prepare_load at hp
    cases hp
    exact region_list_inv_map prepare_region (fun r => ⟨rfl, rfl⟩) _ ih
  | complete_load a a1 ret _ hc ih =>
    unfold as_complete_load at hc
    dsimp only at hc
    cases hpt : a.pagetable with
    | none => rw [hpt] at hc; cases hc
    | some pt =>
      rw [hpt] at hc
      dsimp only at hc
      cases hw : complete_load_walk a.first pt with
      | none => rw [hw] at hc; cases hc
      | some pt1 =>
        rw [hw] at hc
        cases hc
        exact region_list_inv_map _
          (fun r => ⟨(restore_permissions_fields r).1, (restore_permissions_fields r).2.1⟩) _ ih
  | fault a a1 ft addr alloc k out _ _ hf ha ih =>
    rw [vm_fault_first a a1 ft addr alloc k out hf ha]
    exact ih

theorem testBit_one_of_and_PF_W {p : Nat} (h : p &&& PF_W ≠ 0) : p.testBit 1 = true := by
  obtain ⟨i, hi⟩ := Nat.ne_zero_implies_bit_true h
  have h2 : PF_W = 2 ^ 1 := by decide
  rw [h2, Nat.testBit_and, Nat.testBit_two_pow] at hi
  simp at hi
  rw [hi.2]; exact hi.1

theorem and_PF_W_eq_zero_iff (p : Nat) : p &&& PF_W = 0 ↔ p.testBit 1 = false := by
  constructor
  · intro h
    by_contra hc
    have h2 : PF_W = 2 ^ 1 := by decide
    have : (p &&& PF_W).testBit 1 = true := by
      rw [h2, Nat.testBit_and, Nat.testBit_two_pow]; simpa using hc
    rw [h] at this; simp at this
  · intro h
    by_contra hc
    rw [testBit_one_of_and_PF_W hc] at h
    exact Bool.noConfusion h

theorem or_PF_W_and_PF_W (p : Nat) : (p ||| PF_W) &&& PF_W ≠ 0 := by
  intro h
  have := (and_PF_W_eq_zero_iff _).1 h
  have h2 : PF_W = 2 ^ 1 := by decide
  rw [h2, Nat.testBit_or, Nat.testBit_two_pow] at this
  simp at this

theorem or_PF_W_of_set {p : Nat} (h : p &&& PF_W ≠ 0) : p ||| PF_W = p := by
  have hb := testBit_one_of_and_PF_W h
  have h2 : PF_W = 2 ^ 1 := by decide
  apply Nat.eq_of_testBit_eq
  intro i
  rw [h2, Nat.testBit_or, Nat.testBit_two_pow]
  by_cases hi : 1 = i
  · subst hi; simp [hb]
  · simp [hi]

theorem clear_PF_W_of_clear {p : Nat} (hp : p < 2 ^ 32) (h : p &&& PF_W = 0) :
    (p ||| PF_W) &&& (0xFFFFFFFF - PF_W) = p := by
  have hb := (and_PF_W_eq_zero_iff p).1 h
  have h2 : PF_W = 2 ^ 1 := by decide
  have hM : 0xFFFFFFFF - PF_W = 2 ^ 32 - (2 + 1) := by decide
  apply Nat.eq_of_testBit_eq
  intro i
  rw [hM, Nat.testBit_and, Nat.testBit_two_pow_sub_succ (by decide), h2, Nat.testBit_or,
    Nat.testBit_two_pow]
  by_cases hi : 1 = i
  · subst hi; simp [hb]
  · have h2b : Nat.testBit 2 i = false := by
      have : (2:Nat) = 2 ^ 1 := by decide
      rw [this, Nat.testBit_two_pow]; simp [hi]
    by_cases h32 : i < 32
    · simp [hi, h32, h2b]
    · have hlt : p < 2 ^ i := lt_of_lt_of_le hp (Nat.pow_le_pow_right (by decide) (by omega))
      simp [Nat.testBit_lt_two_pow hlt, hi]

theorem get_pd_bits_eq (a : Nat) : get_pd_bits a = a / 2097152 := by
  unfold get_pd_bits; rw [Nat.shiftRight_eq_div_pow]

theorem get_pt_bits_eq (a : Nat) : get_pt_bits a = a % 2097152 / 4096 := by
  unfold get_pt_bits; rw [Nat.shiftRight_eq_div_pow, Nat.shiftLeft_eq]; omega

theorem get_pd_bits_lt (a : Nat) (h : a < 2 ^ 32) : get_pd_bits a < NUM_PD_ENTRY := by
  rw [get_pd_bits_eq]; unfold NUM_PD_ENTRY; omega

theorem get_pt_bits_lt (a : Nat) : get_pt_bits a < NUM_PT_ENTRY := by
  rw [get_pt_bits_eq]; unfold NUM_PT_ENTRY; omega

theorem slot_vaddr_of_bits (a : Nat) (h : a < 2 ^ 32) :
    slot_vaddr (get_pd_bits a) (get_pt_bits a) = a / 4096 * 4096 := by
  unfold slot_vaddr
  dsimp only
  rw [get_pd_bits_eq, get_pt_bits_eq, Nat.shiftLeft_eq, Nat.shiftLeft_eq]
  have h1 : a / 2097152 * 2 ^ 21 % 2 ^ 32 = 2 ^ 21 * (a / 2097152) := by omega
  have h2 : a % 2097152 / 4096 * 2 ^ 12 % 2 ^ 32 = a % 2097152 / 4096 * 4096 := by omega
  rw [h1, h2, ← Nat.mul_add_lt_is_or (by omega)]
  omega

/-- The saved-and-widened region of `as_prepare_load` goes back to its permissions in the
second loop of `as_complete_load`. -/
theorem restore_after_prepare (r : region) (h : r.permissions < 2 ^ 32) :
    restore_permissions (prepare_region r) = { r with old_permissions := r.permissions } := by
  unfold restore_permissions prepare_region
  dsimp only
  by_cases hw : r.permissions &&& PF_W ≠ 0
  · rw [if_pos hw, Nat.or_assoc, Nat.or_self, or_PF_W_of_set hw]
  · rw [if_neg hw, clear_PF_W_of_clear h (not_not.1 hw)]

theorem find_region_some (l : List region) (v : Nat) (r : region)
    (h : find_region l v = some r) : r ∈ l ∧ in_region r v := by
  induction l with
  | nil => cases h
  | cons c rest ih =>
    unfold find_region at h
    by_cases hc : v ≥ c.base_addr ∧ v < (c.base_addr + c.memsize) % 2 ^ 32
    · rw [if_pos hc] at h
      cases h
      have hle : (r.base_addr + r.memsize) % 2 ^ 32 ≤ r.base_addr + r.memsize := Nat.mod_le _ _
      exact ⟨List.mem_cons_self _ _, hc.1, by omega⟩
    · rw [if_neg hc] at h
      exact ⟨List.mem_cons_of_mem _ (ih h).1, (ih h).2⟩

theorem find_region_isSome (l : List region) (v : Nat) (r : region) (hr : r ∈ l)
    (hw : r.base_addr + r.memsize < 2 ^ 32) (hin : in_region r v) :
    (find_region l v).isSome = true := by
  induction l with
  | nil => cases hr
  | cons c rest ih =>
    unfold find_region
    by_cases hc : v ≥ c.base_addr ∧ v < (c.base_addr + c.memsize) % 2 ^ 32
    · rw [if_pos hc]; rfl
    · rw [if_neg hc]
      rcases List.mem_cons.1 hr with rfl | hr'
      · exfalso; apply hc
        rw [Nat.mod_eq_of_lt hw]
        exact ⟨hin.1, hin.2⟩
      · exact ih hr'

/-- In a list of pairwise disjoint regions that do not wrap, the search finds the one region
that contains the address. -/
theorem find_region_unique (l : List region) (v : Nat) (r : region) (hr : r ∈ l)
    (hw : ∀ s ∈ l, s.base_addr + s.memsize < 2 ^ 32) (hd : l.Pairwise regions_disjoint)
    (hin : in_region r v) : find_region l v = some r := by
  induction l with
  | nil => cases hr
  | cons c rest ih =>
    unfold find_region
    by_cases hc : v ≥ c.base_addr ∧ v < (c.base_addr + c.memsize) % 2 ^ 32
    · rw [if_pos hc]
      rcases List.mem_cons.1 hr with rfl | hr'
      · rfl
      · exfalso
        have hcr := (List.pairwise_cons.1 hd).1 r hr'
        have := hw c (List.mem_cons_self _ _)
        rw [Nat.mod_eq_of_lt this] at hc
        exact hcr v ⟨hc.1, hc.2, hin.1, hin.2⟩
    · rw [if_neg hc]
      rcases List.mem_cons.1 hr with rfl | hr'
      · exfalso; apply hc
        rw [Nat.mod_eq_of_lt (hw r (List.mem_cons_self _ _))]
        exact ⟨hin.1, hin.2⟩
      · exact ih hr' (fun s hs => hw s (List.mem_cons_of_mem _ hs)) (List.pairwise_cons.1 hd).2

theorem foldlM_option_inv {α β : Type} (f : β → α → Option β) (Inv : β → Prop) (l : List α)
    (step : ∀ b x, x ∈ l → Inv b → ∃ b1, f b x = some b1 ∧ Inv b1) (b : β) (hb : Inv b) :
    ∃ b1, l.foldlM f b = some b1 ∧ Inv b1 := by
  induction l generalizing b with
  | nil => exact ⟨b, rfl, hb⟩
  | cons x xs ih =>
    obtain ⟨b1, h1, hi1⟩ := step b x (List.mem_cons_self _ _) hb
    obtain ⟨b2, h2, hi2⟩ := ih (fun b x hx => step b x (List.mem_cons_of_mem _ hx)) b1 hi1
    refine ⟨b2, ?_, hi2⟩
    rw [List.foldlM_cons, h1]
    exact h2

theorem complete_load_slot_some (first : List region) (i : Nat) (t : Nat → Nat) (j : Nat)
    (hj : j < NUM_PT_ENTRY) (h : table_searchable first i t) :
    ∃ t1, complete_load_slot first i t j = some t1 ∧ table_searchable first i t1 := by
  unfold complete_load_slot
  by_cases hs : t j ≠ PTE_UNALLOCATED
  · rw [if_pos hs]
    dsimp only
    have hfind := h j hj hs
    cases hf : find_region first (slot_vaddr i j) with
    | none => rw [hf] at hfind; cases hfind
    | some curr =>
      dsimp only
      by_cases hw : curr.old_permissions &&& PF_W = 0
      · rw [if_pos hw]
        refine ⟨_, rfl, ?_⟩
        intro j1 hj1 hne
        by_cases hjj : j1 = j
        · subst hjj; exact hfind
        · rw [Function.update_noteq hjj] at hne
          exact h j1 hj1 hne
      · rw [if_neg hw]
        exact ⟨t, rfl, h⟩
  · rw [if_neg hs]
    exact ⟨t, rfl, h⟩

theorem complete_load_table_some (first : List region) (i : Nat) (t : Nat → Nat)
    (h : table_searchable first i t) :
    ∃ t1, complete_load_table first i t = some t1 ∧ table_searchable first i t1 := by
  unfold complete_load_table
  apply foldlM_option_inv _ (table_searchable first i) _ _ t h
  intro b x hx hb
  exact complete_load_slot_some first i b x (List.mem_range.1 hx) hb

theorem complete_load_walk_some (first : List region) (pt : Nat → Option (Nat → Nat))
    (h : dir_searchable first pt) :
    ∃ pt1, complete_load_walk first pt = some pt1 ∧ dir_searchable first pt1 := by
  unfold complete_load_walk
  apply foldlM_option_inv _ (dir_searchable first) _ _ pt h
  intro b i hi hb
  unfold complete_load_entry
  cases hbi : b i with
  | none => exact ⟨b, rfl, hb⟩
  | some t =>
    dsimp only
    obtain ⟨t1, ht1, hs1⟩ := complete_load_table_some first i t (hb i (List.mem_range.1 hi) t hbi)
    refine ⟨Function.update b i (some t1), ?_, ?_⟩
    · rw [ht1]; rfl
    · intro i1 hi1 t2 ht2
      by_cases hii : i1 = i
      · subst hii
        rw [Function.update_same] at ht2
        cases ht2; exact hs1
      · rw [Function.update_noteq hii] at ht2
        exact hb i1 hi1 t2 ht2

theorem find_region_some_code (l : List region) (v : Nat) (r : region)
    (h : find_region l v = some r) :
    r ∈ l ∧ v ≥ r.base_addr ∧ v < (r.base_addr + r.memsize) % 2 ^ 32 := by
  induction l with
  | nil => cases h
  | cons c rest ih =>
    unfold find_region at h
    by_cases hc : v ≥ c.base_addr ∧ v < (c.base_addr + c.memsize) % 2 ^ 32
    · rw [if_pos hc] at h
      cases h
      exact ⟨List.mem_cons_self _ _, hc⟩
    · rw [if_neg hc] at h
      exact ⟨List.mem_cons_of_mem _ (ih h).1, (ih h).2⟩

theorem find_region_isSome_code (l : List region) (v : Nat) (r : region) (hr : r ∈ l)
    (hin : v ≥ r.base_addr ∧ v < (r.base_addr + r.memsize) % 2 ^ 32) :
    (find_region l v).isSome = true := by
  induction l with
  | nil => cases hr
  | cons c rest ih =>
    unfold find_region
    by_cases hc : v ≥ c.base_addr ∧ v < (c.base_addr + c.memsize) % 2 ^ 32
    · rw [if_pos hc]; rfl
    · rw [if_neg hc]
      rcases List.mem_cons.1 hr with rfl | hr'
      · exact absurd hin hc
      · exact ih hr'

/-- When the region search succeeds at an address and region bases are page-aligned, it
succeeds at the base of the page of that address. -/
theorem find_region_page (l : List region) (v : Nat) (hal : ∀ r ∈ l, 4096 ∣ r.base_addr)
    (h : (find_region l v).isSome = true) : (find_region l (v / 4096 * 4096)).isSome = true := by
  cases hf : find_region l v with
  | none => rw [hf] at h; cases h
  | some r =>
    obtain ⟨hr, h1, h2⟩ := find_region_some_code l v r hf
    have := hal r hr
    exact find_region_isSome_code l _ r hr ⟨by omega, by omega⟩

theorem index_in_range (vaddr : Nat) (hv : vaddr < 2 ^ 32) :
    ¬ (get_pd_bits vaddr ≥ NUM_PD_ENTRY ∨ get_pt_bits vaddr ≥ NUM_PT_ENTRY) := by
  have h1 := get_pd_bits_lt vaddr hv
  have h2 := get_pt_bits_lt vaddr
  omega

/-- `insert_pte` on an address space with a directory and a 32-bit address: the index range
check passes. -/
theorem insert_pte_eq (as : addrspace) (pt : Nat → Option (Nat → Nat)) (vaddr paddr : Nat)
    (k : Bool) (hpt : as.pagetable = some pt) (hv : vaddr < 2 ^ 32) :
    insert_pte as vaddr paddr k =
      match table_or_fresh (pt (get_pd_bits vaddr)) k with
      | none => some (ENOMEM, as)
      | some t =>
        if t (get_pt_bits vaddr) ≠ PTE_UNALLOCATED then
          some (EFAULT,
            { as with pagetable := some (Function.update pt (get_pd_bits vaddr) (some t)) })
        else
          match find_region as.first vaddr with
          | none => none
          | some curr =>
            some (0, { as with pagetable := some (Function.update pt (get_pd_bits vaddr)
              (some (Function.update t (get_pt_bits vaddr) (compose_pte curr paddr)))) }) := by
  unfold insert_pte
  dsimp only
  rw [if_neg (index_in_range vaddr hv), hpt]

theorem table_or_fresh_searchable (first : List region) (i : Nat) (slot : Option (Nat → Nat))
    (k : Bool) (t : Nat → Nat) (h : table_or_fresh slot k = some t)
    (hs : ∀ t0, slot = some t0 → table_searchable first i t0) : table_searchable first i t := by
  unfold table_or_fresh at h
  cases slot with
  | some t0 => cases h; exact hs t rfl
  | none =>
    dsimp only at h
    by_cases hk : k = true
    · rw [if_pos hk] at h
      cases h
      intro j _ hne
      exact absurd rfl hne
    · rw [if_neg hk] at h; cases h

theorem dir_searchable_update (first : List region) (pt : Nat → Option (Nat → Nat)) (i : Nat)
    (t : Nat → Nat) (h : dir_searchable first pt) (ht : table_searchable first i t) :
    dir_searchable first (Function.update pt i (some t)) := by
  intro i1 hi1 t1 ht1
  by_cases hii : i1 = i
  · subst hii
    rw [Function.update_same] at ht1
    cases ht1; exact ht
  · rw [Function.update_noteq hii] at ht1
    exact h i1 hi1 t1 ht1

theorem insert_pte_searchable (a a1 : addrspace) (pt : Nat → Option (Nat → Nat))
    (vaddr paddr code : Nat) (k : Bool) (hpt : a.pagetable = some pt) (hv : vaddr < 2 ^ 32)
    (hal : ∀ r ∈ a.first, 4096 ∣ r.base_addr) (hs : dir_searchable a.first pt)
    (h : insert_pte a vaddr paddr k = some (code, a1)) :
    ∃ pt1, a1.pagetable = some pt1 ∧ dir_searchable a.first pt1 := by
  rw [insert_pte_eq a pt vaddr paddr k hpt hv] at h
  cases hf : table_or_fresh (pt (get_pd_bits vaddr)) k with
  | none => rw [hf] at h; cases h; exact ⟨pt, hpt, hs⟩
  | some t =>
    rw [hf] at h
    dsimp only at h
    have hts : table_searchable a.first (get_pd_bits vaddr) t :=
      table_or_fresh_searchable a.first _ _ k t hf
        (fun t0 h0 => hs _ (get_pd_bits_lt vaddr hv) t0 h0)
    by_cases hp : t (get_pt_bits vaddr) ≠ PTE_UNALLOCATED
    · rw [if_pos hp] at h
      cases h
      exact ⟨_, rfl, dir_searchable_update _ _ _ _ hs hts⟩
    · rw [if_neg hp] at h
      cases hfr : find_region a.first vaddr with
      | none => rw [hfr] at h; cases h
      | some curr =>
        rw [hfr] at h
        cases h
        refine ⟨_, rfl, dir_searchable_update _ _ _ _ hs ?_⟩
        intro j hj hne
        by_cases hjj : j = get_pt_bits vaddr
        · subst hjj
          rw [slot_vaddr_of_bits vaddr hv]
          apply find_region_page a.first vaddr hal
          rw [hfr]; rfl
        · rw [Function.update_noteq hjj] at hne
          exact hts j hj hne

/-- After a `vm_fault` that returns, the current address space is the one before the call,
or the one `insert_pte` left behind. -/
theorem vm_fault_as_cases (a a1 : addrspace) (faulttype : Int) (faultaddress alloc : Nat)
    (k : Bool) (out : fault_effects)
    (h : vm_fault (some ⟨some a⟩) faulttype faultaddress alloc k = some out)
    (ha : out.as = some a1) :
    a1 = a ∨ ∃ code,
      insert_pte a faultaddress (KVADDR_TO_PADDR alloc &&& PAGE_FRAME) k = some (code, a1) := by
  unfold vm_fault at h
  dsimp only at h
  by_cases h1 : faulttype = VM_FAULT_READONLY
  · rw [if_pos h1] at h; cases h; cases ha; exact Or.inl rfl
  rw [if_neg h1] at h
  by_cases h2 : ¬ (faulttype = VM_FAULT_WRITE ∨ faulttype = VM_FAULT_READ)
  · rw [if_pos h2] at h; cases h; cases ha; exact Or.inl rfl
  rw [if_neg h2] at h
  by_cases h3 : a.pagetable.isNone = true
  · rw [if_pos h3] at h; cases h; cases ha; exact Or.inl rfl
  rw [if_neg h3] at h
  by_cases h4 : a.first.isEmpty = true
  · rw [if_pos h4] at h; cases h; cases ha; exact Or.inl rfl
  rw [if_neg h4] at h
  cases h5 : lookup_pt a faultaddress with
  | none => rw [h5] at h; cases h
  | some found =>
    rw [h5] at h
    dsimp only at h
    by_cases h6 : found ≠ PTE_UNALLOCATED
    · rw [if_pos h6] at h
      cases h7 : read_slot a (get_pd_bits faultaddress) (get_pt_bits faultaddress) with
      | none => rw [h7] at h; cases h
      | some w => rw [h7] at h; cases h; cases ha; exact Or.inl rfl
    rw [if_neg h6] at h
    by_cases h8 : lookup_region a faultaddress faulttype = EFAULT
    · rw [if_pos h8] at h; cases h; cases ha; exact Or.inl rfl
    rw [if_neg h8] at h
    by_cases h9 : alloc = 0
    · rw [if_pos h9] at h; cases h; cases ha; exact Or.inl rfl
    rw [if_neg h9] at h
    cases h10 : insert_pte a faultaddress (KVADDR_TO_PADDR alloc &&& PAGE_FRAME) k with
    | none => rw [h10] at h; cases h
    | some res =>
      obtain ⟨code, as1⟩ := res
      rw [h10] at h
      dsimp only at h
      cases h11 : read_slot as1 (get_pd_bits faultaddress) (get_pt_bits faultaddress) with
      | none => rw [h11] at h; cases h
      | some w =>
        rw [h11] at h; cases h; cases ha
        exact Or.inr ⟨code, rfl⟩

/-- What a sequence of faults keeps: the region list, the presence of a directory, and that
the region search succeeds at every installed PTE. -/
theorem fault_sequence_keeps (a b : addrspace) (h : fault_sequence a b)
    (pt : Nat → Option (Nat → Nat)) (hpt : a.pagetable = some pt)
    (hal : ∀ r ∈ a.first, 4096 ∣ r.base_addr) (hs : dir_searchable a.first pt) :
    b.first = a.first ∧ ∃ pt1, b.pagetable = some pt1 ∧ dir_searchable a.first pt1 := by
  induction h with
  | nil => exact ⟨rfl, pt, hpt, hs⟩
  | snoc b c ft addr alloc k out _ hv hf ha ih =>
    obtain ⟨hfirst, pt1, hpt1, hs1⟩ := ih
    rcases vm_fault_as_cases b c ft addr alloc k out hf ha with rfl | ⟨code, hins⟩
    · exact ⟨hfirst, pt1, hpt1, hs1⟩
    · refine ⟨(insert_pte_first _ _ _ _ _ _ hins).trans hfirst, ?_⟩
      have := insert_pte_searchable b c pt1 addr _ code k hpt1 hv
        (by rw [hfirst]; exact hal) (by rw [hfirst]; exact hs1) hins
      rw [hfirst] at this
      exact this

/-- Claim C7: for an address space with a directory whose regions are page-aligned and end
at or below `MIPS_KSEG0`, whose permission words are 32-bit, and in which every installed PTE
lies in some region: `as_prepare_load` returns 0; after any sequence of `vm_fault` calls
every region has `PF_W` set; and `as_complete_load` then returns 0 and leaves each region
with the base, size and permissions it had before `as_prepare_load` (and with
`old_permissions` equal to those permissions). -/
theorem prepare_load_complete_load (a : addrspace) (pt : Nat → Option (Nat → Nat))
    (hpt : a.pagetable = some pt)
    (hok : ∀ r ∈ a.first, region_ok r)
    (h32 : ∀ r ∈ a.first, r.permissions < 2 ^ 32)
    (hpte : ptes_in_regions a.first pt) :
    ∃ a1, as_prepare_load (some a) = (0, some a1) ∧
      ∀ a2, fault_sequence a1 a2 →
        (∀ r ∈ a2.first, r.permissions &&& PF_W ≠ 0) ∧
        ∃ a3, as_complete_load (some a2) = some (0, some a3) ∧
          a3.first = a.first.map (fun r => { r with old_permissions := r.permissions }) := by
  refine ⟨_, rfl, ?_⟩
  intro a2 hseq
  have hK : MIPS_KSEG0 = 2147483648 := rfl
  have hal : ∀ r ∈ a.first.map prepare_region, 4096 ∣ r.base_addr := by
    intro r hr
    obtain ⟨s, hs, rfl⟩ := List.mem_map.1 hr
    exact (hok s hs).1
  have hs0 : dir_searchable (a.first.map prepare_region) pt := by
    intro i hi t ht j hj hne
    obtain ⟨r, hr, hin⟩ := hpte i j t hi hj ht hne
    have hro := hok r hr
    unfold region_ok at hro
    exact find_region_isSome _ _ _ (List.mem_map_of_mem prepare_region hr)
      (by show r.base_addr + r.memsize < 2 ^ 32; omega) hin
  obtain ⟨hfirst, pt2, hpt2, hs2⟩ := fault_sequence_keeps _ a2 hseq pt hpt hal hs0
  dsimp only at hfirst hs2
  constructor
  · intro r hr
    rw [hfirst] at hr
    obtain ⟨s, _, rfl⟩ := List.mem_map.1 hr
    exact or_PF_W_and_PF_W _
  · obtain ⟨pt3, hw, _⟩ := complete_load_walk_some _ pt2 hs2
    refine ⟨{ first := a2.first.map restore_permissions, pagetable := some pt3 }, ?_, ?_⟩
    · unfold as_complete_load
      dsimp only
      rw [hpt2]
      dsimp only
      rw [hfirst, hw]
    · dsimp only
      rw [hfirst, List.map_map]
      apply List.map_congr_left
      intro r hr
      exact restore_after_prepare r (h32 r hr)

theorem lookup_pt_hit (as : addrspace) (pt : Nat → Option (Nat → Nat)) (t : Nat → Nat)
    (vaddr : Nat) (hpt : as.pagetable = some pt) (hv : vaddr < 2 ^ 32)
    (ht : pt (get_pd_bits vaddr) = some t) (hw : t (get_pt_bits vaddr) ≠ PTE_UNALLOCATED) :
    lookup_pt as vaddr = some (t (get_pt_bits vaddr) &&& PAGE_FRAME) := by
  unfold lookup_pt
  dsimp only
  have hr : ¬ (get_first_10_bits vaddr ≥ NUM_PD_ENTRY ∨ get_middle_10_bits vaddr ≥ NUM_PT_ENTRY) :=
    index_in_range vaddr hv
  rw [if_neg hr, hpt]
  dsimp only
  rw [show get_first_10_bits vaddr = get_pd_bits vaddr from rfl, ht]
  dsimp only
  rw [show get_middle_10_bits vaddr = get_pt_bits vaddr from rfl, if_neg hw]

theorem lookup_pt_miss (as : addrspace) (pt : Nat → Option (Nat → Nat))
    (vaddr : Nat) (hpt : as.pagetable = some pt) (hv : vaddr < 2 ^ 32)
    (hm : slot_word pt (get_pd_bits vaddr) (get_pt_bits vaddr) = PTE_UNALLOCATED) :
    lookup_pt as vaddr = some PTE_UNALLOCATED := by
  unfold lookup_pt
  dsimp only
  have hr : ¬ (get_first_10_bits vaddr ≥ NUM_PD_ENTRY ∨ get_middle_10_bits vaddr ≥ NUM_PT_ENTRY) :=
    index_in_range vaddr hv
  rw [if_neg hr, hpt]
  dsimp only
  rw [show get_first_10_bits vaddr = get_pd_bits vaddr from rfl,
    show get_middle_10_bits vaddr = get_pt_bits vaddr from rfl]
  unfold slot_word at hm
  cases hpd : pt (get_pd_bits vaddr) with
  | none => rfl
  | some t =>
    rw [hpd] at hm
    dsimp only at hm ⊢
    rw [if_pos hm]

theorem and_PAGE_FRAME_ne_sentinel (w : Nat) : w &&& PAGE_FRAME ≠ PTE_UNALLOCATED := by
  have h : w &&& PAGE_FRAME ≤ PAGE_FRAME := Nat.and_le_right
  have h1 : PAGE_FRAME < PTE_UNALLOCATED := by decide
  omega

theorem lookup_region_scan_none (l : List region) (v : Nat) (faulttype : Int)
    (h : find_region l v = none) : lookup_region_scan v faulttype l = EFAULT := by
  induction l with
  | nil => rfl
  | cons c rest ih =>
    unfold find_region at h
    unfold lookup_region_scan
    by_cases hc : v ≥ c.base_addr ∧ v < (c.base_addr + c.memsize) % 2 ^ 32
    · rw [if_pos hc] at h; cases h
    · rw [if_neg hc] at h
      rw [if_neg hc]
      exact ih h

theorem lookup_region_scan_some (l : List region) (v : Nat) (faulttype : Int) (r : region)
    (h : find_region l v = some r) :
    lookup_region_scan v faulttype l =
      if faulttype = VM_FAULT_READ then (if r.permissions &&& PF_R = 0 then EPERM else 0)
      else if faulttype = VM_FAULT_WRITE then (if r.permissions &&& PF_W = 0 then EPERM else 0)
      else EINVAL := by
  induction l with
  | nil => cases h
  | cons c rest ih =>
    unfold find_region at h
    unfold lookup_region_scan
    by_cases hc : v ≥ c.base_addr ∧ v < (c.base_addr + c.memsize) % 2 ^ 32
    · rw [if_pos hc] at h; cases h
      rw [if_pos hc]
    · rw [if_neg hc] at h
      rw [if_neg hc]
      exact ih h

theorem lookup_region_found (as : addrspace) (v : Nat) (faulttype : Int) (r : region)
    (h : find_region as.first v = some r) : lookup_region as v faulttype ≠ EFAULT := by
  unfold lookup_region
  rw [lookup_region_scan_some as.first v faulttype r h]
  split
  · split <;> decide
  · split
    · split <;> decide
    · decide

theorem find_region_none (l : List region) (v : Nat) (h : ∀ r ∈ l, ¬ in_region r v) :
    find_region l v = none := by
  cases hf : find_region l v with
  | none => rfl
  | some r => exact absurd (find_region_some l v r hf).2 (h r (find_region_some l v r hf).1)

/-- `vm_fault` past its early exits, at an address whose page has no installed PTE. -/
theorem vm_fault_miss_eq (as : addrspace) (pt : Nat → Option (Nat → Nat)) (faulttype : Int)
    (faultaddress alloc : Nat) (k : Bool)
    (hft : faulttype = VM_FAULT_READ ∨ faulttype = VM_FAULT_WRITE)
    (hpt : as.pagetable = some pt) (hne : as.first ≠ []) (hv : faultaddress < 2 ^ 32)
    (hm : slot_word pt (get_pd_bits faultaddress) (get_pt_bits faultaddress) = PTE_UNALLOCATED) :
    vm_fault (some ⟨some as⟩) faulttype faultaddress alloc k =
      if lookup_region as faultaddress faulttype = EFAULT then
        some { result := EFAULT, as := some as, frames := [], zeroed := [], tlb := [] }
      else if alloc = 0 then
        some { result := ENOMEM, as := some as, frames := [], zeroed := [], tlb := [] }
      else
        match insert_pte as faultaddress (KVADDR_TO_PADDR alloc &&& PAGE_FRAME) k with
        | none => none
        | some (_, as1) =>
          match read_slot as1 (get_pd_bits faultaddress) (get_pt_bits faultaddress) with
          | none => none
          | some entrylo =>
            some { result := 0, as := some as1, frames := [alloc], zeroed := [alloc],
                   tlb := [(faultaddress &&& PAGE_FRAME, entrylo)] } := by
  unfold vm_fault
  dsimp only
  have h1 : ¬ faulttype = VM_FAULT_READONLY := by
    rcases hft with h | h <;> rw [h] <;> decide
  have h2 : ¬ ¬ (faulttype = VM_FAULT_WRITE ∨ faulttype = VM_FAULT_READ) :=
    not_not.2 (Or.symm hft)
  have h3 : ¬ as.pagetable.isNone = true := by rw [hpt]; simp
  have h4 : ¬ as.first.isEmpty = true := by
    cases hl : as.first with
    | nil => exact absurd hl hne
    | cons c rest => simp
  rw [if_neg h1, if_neg h2, if_neg h3, if_neg h4, lookup_pt_miss as pt faultaddress hpt hv hm]
  dsimp only
  rw [if_neg (not_not.2 rfl)]

/-- The word `insert_pte` composes, written the way the spec composes a PTE. -/
theorem compose_pte_eq (curr : region) (paddr : Nat) :
    compose_pte curr paddr =
      paddr ||| TLBLO_VALID ||| (if curr.permissions &&& PF_W ≠ 0 then TLBLO_DIRTY else 0) := by
  unfold compose_pte
  dsimp only
  by_cases hw : curr.permissions &&& PF_W ≠ 0
  · rw [if_pos hw, if_pos hw, Nat.or_assoc, Nat.or_assoc, Nat.or_comm TLBLO_DIRTY]
  · rw [if_neg hw, if_neg hw, Nat.or_zero]

theorem table_or_fresh_miss (pt : Nat → Option (Nat → Nat)) (i j : Nat) (k : Bool)
    (hm : slot_word pt i j = PTE_UNALLOCATED) (hk : pt i = none → k = true) :
    ∃ t, table_or_fresh (pt i) k = some t ∧ t j = PTE_UNALLOCATED ∧
      ∀ j1, t j1 = slot_word pt i j1 := by
  unfold slot_word at hm ⊢
  unfold table_or_fresh
  cases hpd : pt i with
  | none =>
    dsimp only
    rw [if_pos (hk hpd)]
    exact ⟨_, rfl, rfl, fun _ => rfl⟩
  | some t =>
    rw [hpd] at hm
    exact ⟨t, rfl, hm, fun _ => rfl⟩

/-- A fault that installs a page: READ or WRITE fault on an address space with a directory,
at a 32-bit address whose page has no installed PTE, where the region search finds `r`,
`alloc_kpages` returns a frame and the second-level table exists or can be allocated. -/
theorem vm_fault_install (as : addrspace) (pt : Nat → Option (Nat → Nat))
    (faulttype : Int) (faultaddress alloc : Nat) (k : Bool) (r : region)
    (hft : faulttype = VM_FAULT_READ ∨ faulttype = VM_FAULT_WRITE)
    (hpt : as.pagetable = some pt) (hv : faultaddress < 2 ^ 32)
    (hm : slot_word pt (get_pd_bits faultaddress) (get_pt_bits faultaddress) = PTE_UNALLOCATED)
    (hfind : find_region as.first faultaddress = some r)
    (halloc : alloc ≠ 0)
    (hk : pt (get_pd_bits faultaddress) = none → k = true) :
    ∃ pt1,
      vm_fault (some ⟨some as⟩) faulttype faultaddress alloc k =
        some { result := 0,
               as := some { first := as.first, pagetable := some pt1 },
               frames := [alloc],
               zeroed := [alloc],
               tlb := [(faultaddress &&& PAGE_FRAME,
                 (KVADDR_TO_PADDR alloc &&& PAGE_FRAME) ||| TLBLO_VALID |||
                   (if r.permissions &&& PF_W ≠ 0 then TLBLO_DIRTY else 0))] } ∧
      slot_word pt1 (get_pd_bits faultaddress) (get_pt_bits faultaddress) =
        (KVADDR_TO_PADDR alloc &&& PAGE_FRAME) ||| TLBLO_VALID |||
          (if r.permissions &&& PF_W ≠ 0 then TLBLO_DIRTY else 0) ∧
      ∀ i j, ¬ (i = get_pd_bits faultaddress ∧ j = get_pt_bits faultaddress) →
        slot_word pt1 i j = slot_word pt i j := by
  have hne : as.first ≠ [] := by
    intro h; rw [h] at hfind; cases hfind
  obtain ⟨t, ht, htj, htw⟩ := table_or_fresh_miss pt _ _ k hm hk
  refine ⟨Function.update pt (get_pd_bits faultaddress) (some (Function.update t
    (get_pt_bits faultaddress) (compose_pte r (KVADDR_TO_PADDR alloc &&& PAGE_FRAME)))), ?_, ?_, ?_⟩
  · rw [vm_fault_miss_eq as pt faulttype faultaddress alloc k hft hpt hne hv hm,
      if_neg (lookup_region_found as faultaddress faulttype r hfind), if_neg halloc,
      insert_pte_eq as pt faultaddress _ k hpt hv, ht]
    dsimp only
    rw [if_neg (not_not.2 htj), hfind]
    dsimp only
    unfold read_slot
    dsimp only
    rw [Function.update_same]
    dsimp only
    rw [Function.update_same, compose_pte_eq]
  · unfold slot_word
    rw [Function.update_same]
    dsimp only
    rw [Function.update_same, compose_pte_eq]
  · intro i j hij
    unfold slot_word
    by_cases hi : i = get_pd_bits faultaddress
    · subst hi
      have hj : j ≠ get_pt_bits faultaddress := fun h => hij ⟨rfl, h⟩
      rw [Function.update_same]
      dsimp only
      rw [Function.update_noteq hj, htw j]
      rfl
    · rw [Function.update_noteq hi]

/-- Claim C8, amended: for a READ or WRITE fault on an address space with a directory that
satisfies the region-list invariant, at a 32-bit address whose page has no installed PTE,
which lies in region `r` permitting the access, when `alloc_kpages` returns a frame and the
second-level table of the page exists already or its allocation succeeds: `vm_fault`
returns 0, one frame is allocated and zero-filled, the slot of the page then holds
`frame | TLBLO_VALID | (TLBLO_DIRTY iff r has PF_W)`, no other slot changes, the region list
is unchanged, and the TLB is written once with entry-high `addr & PAGE_FRAME` and that word
as entry-low. The two permission hypotheses are not used by the proof. -/
theorem vm_fault_demand_page (as : addrspace) (pt : Nat → Option (Nat → Nat))
    (faulttype : Int) (faultaddress alloc : Nat) (k : Bool) (r : region)
    (hft : faulttype = VM_FAULT_READ ∨ faulttype = VM_FAULT_WRITE)
    (hpt : as.pagetable = some pt) (hinv : region_list_inv as.first)
    (hv : faultaddress < 2 ^ 32)
    (hm : slot_word pt (get_pd_bits faultaddress) (get_pt_bits faultaddress) = PTE_UNALLOCATED)
    (hr : r ∈ as.first) (hin : in_region r faultaddress)
    (_hrd : faulttype = VM_FAULT_READ → r.permissions &&& PF_R ≠ 0)
    (_hwr : faulttype = VM_FAULT_WRITE → r.permissions &&& PF_W ≠ 0)
    (halloc : alloc ≠ 0)
    (hk : pt (get_pd_bits faultaddress) = none → k = true) :
    ∃ pt1,
      vm_fault (some ⟨some as⟩) faulttype faultaddress alloc k =
        some { result := 0,
               as := some { first := as.first, pagetable := some pt1 },
               frames := [alloc],
               zeroed := [alloc],
               tlb := [(faultaddress &&& PAGE_FRAME,
                 (KVADDR_TO_PADDR alloc &&& PAGE_FRAME) ||| TLBLO_VALID |||
                   (if r.permissions &&& PF_W ≠ 0 then TLBLO_DIRTY else 0))] } ∧
      slot_word pt1 (get_pd_bits faultaddress) (get_pt_bits faultaddress) =
        (KVADDR_TO_PADDR alloc &&& PAGE_FRAME) ||| TLBLO_VALID |||
          (if r.permissions &&& PF_W ≠ 0 then TLBLO_DIRTY else 0) ∧
      ∀ i j, ¬ (i = get_pd_bits faultaddress ∧ j = get_pt_bits faultaddress) →
        slot_word pt1 i j = slot_word pt i j := by
  have hK : MIPS_KSEG0 = 2147483648 := rfl
  have hfind : find_region as.first faultaddress = some r :=
    find_region_unique as.first faultaddress r hr
      (fun s hs => by have := hinv.1 s hs; unfold region_ok at this; omega) hinv.2 hin
  exact vm_fault_install as pt faulttype faultaddress alloc k r hft hpt hv hm hfind halloc hk

/-- Claim C9: for a READ or WRITE fault with a current process whose address space has a
directory and at least one region, at a 32-bit address whose page has an installed PTE,
`vm_fault` returns 0, writes the TLB once with entry-high `faultaddress & PAGE_FRAME` and
entry-low the stored word, allocates nothing and leaves the address space unchanged. -/
theorem vm_fault_hit (as : addrspace) (pt : Nat → Option (Nat → Nat)) (t : Nat → Nat)
    (faulttype : Int) (faultaddress alloc : Nat) (k : Bool)
    (hft : faulttype = VM_FAULT_READ ∨ faulttype = VM_FAULT_WRITE)
    (hpt : as.pagetable = some pt) (hne : as.first ≠ []) (hv : faultaddress < 2 ^ 32)
    (ht : pt (get_pd_bits faultaddress) = some t)
    (hw : t (get_pt_bits faultaddress) ≠ PTE_UNALLOCATED) :
    vm_fault (some ⟨some as⟩) faulttype faultaddress alloc k =
      some { result := 0, as := some as, frames := [], zeroed := [],
             tlb := [(faultaddress &&& PAGE_FRAME, t (get_pt_bits faultaddress))] } := by
  unfold vm_fault
  dsimp only
  have h1 : ¬ faulttype = VM_FAULT_READONLY := by
    rcases hft with h | h <;> rw [h] <;> decide
  have h2 : ¬ ¬ (faulttype = VM_FAULT_WRITE ∨ faulttype = VM_FAULT_READ) :=
    not_not.2 (Or.symm hft)
  have h3 : ¬ as.pagetable.isNone = true := by rw [hpt]; simp
  have h4 : ¬ as.first.isEmpty = true := by
    cases hl : as.first with
    | nil => exact absurd hl hne
    | cons c rest => simp
  have h5 : read_slot as (get_pd_bits faultaddress) (get_pt_bits faultaddress) =
      some (t (get_pt_bits faultaddress)) := by
    unfold read_slot
    rw [hpt]
    dsimp only
    rw [ht]
  rw [if_neg h1, if_neg h2, if_neg h3, if_neg h4,
    lookup_pt_hit as pt t faultaddress hpt hv ht hw]
  dsimp only
  rw [if_pos (and_PAGE_FRAME_ne_sentinel _), h5]

/-- Claim C10: for a READ or WRITE fault at a 32-bit address whose page has no installed PTE
and which lies in no region of the current address space, `vm_fault` returns `EFAULT`,
allocates no frame, writes no TLB entry and leaves the address space unchanged. -/
theorem vm_fault_outside_regions (as : addrspace) (faulttype : Int)
    (faultaddress alloc : Nat) (k : Bool)
    (hft : faulttype = VM_FAULT_READ ∨ faulttype = VM_FAULT_WRITE)
    (hv : faultaddress < 2 ^ 32)
    (hm : ∀ pt, as.pagetable = some pt →
      slot_word pt (get_pd_bits faultaddress) (get_pt_bits faultaddress) = PTE_UNALLOCATED)
    (hout : ∀ r ∈ as.first, ¬ in_region r faultaddress) :
    vm_fault (some ⟨some as⟩) faulttype faultaddress alloc k =
      some { result := EFAULT, as := some as, frames := [], zeroed := [], tlb := [] } := by
  cases hpt : as.pagetable with
  | none =>
    unfold vm_fault
    dsimp only
    have h1 : ¬ faulttype = VM_FAULT_READONLY := by
      rcases hft with h | h <;> rw [h] <;> decide
    have h2 : ¬ ¬ (faulttype = VM_FAULT_WRITE ∨ faulttype = VM_FAULT_READ) :=
      not_not.2 (Or.symm hft)
    rw [if_neg h1, if_neg h2, hpt]
    rfl
  | some pt =>
    by_cases hne : as.first = []
    · unfold vm_fault
      dsimp only
      have h1 : ¬ faulttype = VM_FAULT_READONLY := by
        rcases hft with h | h <;> rw [h] <;> decide
      have h2 : ¬ ¬ (faulttype = VM_FAULT_WRITE ∨ faulttype = VM_FAULT_READ) :=
        not_not.2 (Or.symm hft)
      rw [if_neg h1, if_neg h2, hpt, hne]
      rfl
    · rw [vm_fault_miss_eq as pt faulttype faultaddress alloc k hft hpt hne hv (hm pt hpt)]
      have : lookup_region as faultaddress faulttype = EFAULT :=
        lookup_region_scan_none _ _ _ (find_region_none _ _ hout)
      rw [if_pos this]

/-- Claim C1 at a WRITE fault on `0x00400abc` in the region `[0x00400000, 0x00401000)` with
R+X: the page has no PTE, `lookup_region` returns `EPERM`, and `vm_fault` nevertheless
returns 0, takes the frame at `0x80010000`, installs the PTE `0x00010200` at directory slot
2, table slot 0, and writes the TLB. -/
theorem vm_fault_write_readonly_region :
    find_region text_as.first 0x00400abc = some ⟨0x00400000, 0x1000, 5, 0⟩ ∧
    (5 : Nat) &&& PF_W = 0 ∧
    lookup_region text_as 0x00400abc VM_FAULT_WRITE = EPERM ∧
    (vm_fault (some ⟨some text_as⟩) VM_FAULT_WRITE 0x00400abc 0x80010000 true).map
      (fun o => (o.result, o.frames, o.tlb, o.as.bind (fun a => read_slot a 2 0))) =
      some (0, [0x80010000], [(0x00400000, 0x00010200)], some 0x00010200) := by
  refine ⟨by rfl, by decide, by rfl, by rfl⟩

/-- The success case of `as_define_region` at a request next to an existing region:
`vaddr = 0x10000123`, `memsize = 0x1000`, R+W, gives the region `[0x10000000, 0x10002000)`
at the head. -/
theorem as_define_region_success_witness :
    as_define_region (some text2_as) 0x10000123 0x1000 1 1 0 (some 7) =
      (0, some { first := [⟨0x10000000, 0x2000, 6, 7⟩, ⟨0x00400000, 0x2000, 5, 0⟩],
                 pagetable := some empty_dir }) :=
  as_define_region_success text2_as 0x10000123 0x1000 1 1 0 7 (by decide) (by decide)
    (by decide) (by decide) (by intro r hr; rcases List.mem_singleton.1 hr with rfl; decide)

/-- Claim C3 at its scenario: with `[0x00400000, 0x00402000)` R+X defined, defining
`[0x00401000, 0x00403000)` R+W returns `EINVAL` and changes nothing. -/
theorem as_define_region_overlap_witness :
    as_define_region (some text2_as) 0x00401000 0x2000 1 1 0 (some 0) =
      (EINVAL, some text2_as) :=
  as_define_region_overlap text2_as 0x00401000 0x2000 1 1 0 (some 0) (by decide) (by decide)
    (by decide) ⟨0x00400000, 0x2000, 5, 0⟩ (List.mem_singleton.2 rfl) (by decide)
    0x00401000 (by decide) (by decide) (by decide) (by decide)

/-- Claim C4 at its scenario: `vaddr = MIPS_KSEG0 - 0x1000`, `memsize = 0x2000`. -/
theorem as_define_region_kernel_witness :
    as_define_region (some text2_as) (MIPS_KSEG0 - 0x1000) 0x2000 1 1 0 (some 0) =
      (EFAULT, some text2_as) :=
  as_define_region_kernel text2_as (MIPS_KSEG0 - 0x1000) 0x2000 1 1 0 (some 0)
    (by decide) (by decide) (by decide) (by decide)

/-- Claim C6 at the address space reached by `as_create`, two calls of `as_define_region`
and `as_define_stack` with a stack of `0x12000` bytes. -/
theorem reachable_region_list_inv_witness :
    region_list_inv
      [⟨0x7FFEE000, 0x12000, 6, 0⟩, ⟨0x10000000, 0x2000, 6, 7⟩, ⟨0x00400000, 0x2000, 5, 0⟩] :=
  reachable_region_list_inv 0x12000
    { first := [⟨0x7FFEE000, 0x12000, 6, 0⟩, ⟨0x10000000, 0x2000, 6, 7⟩,
                ⟨0x00400000, 0x2000, 5, 0⟩],
      pagetable := some (fun i => if i < NUM_PT_ENTRY then none else empty_dir i) }
    (reachable.define_stack _ _ (some 0)
      (reachable.define_region _ _ 0x10000123 0x1000 1 1 0 (some 7)
        (reachable.define_region _ _ 0x00400000 0x2000 1 0 1 (some 0)
          (reachable.create true (some empty_dir) _ rfl)
          (by decide) (by decide) rfl)
        (by decide) (by decide) rfl)
      rfl)

/-- Claim C7 at the address space with the one region `[0x00400000, 0x00402000)` R+X. -/
theorem prepare_load_complete_load_witness :
    ∃ a1, as_prepare_load (some text2_as) = (0, some a1) ∧
      ∀ a2, fault_sequence a1 a2 →
        (∀ r ∈ a2.first, r.permissions &&& PF_W ≠ 0) ∧
        ∃ a3, as_complete_load (some a2) = some (0, some a3) ∧
          a3.first = [⟨0x00400000, 0x2000, 5, 5⟩] :=
  prepare_load_complete_load text2_as empty_dir rfl
    (by intro r hr; rcases List.mem_singleton.1 hr with rfl; decide)
    (by intro r hr; rcases List.mem_singleton.1 hr with rfl; decide)
    (by intro i j t _ _ ht; cases ht)

/-- Claim C8, amended, at its scenario: region `[0x00400000, 0x00401000)` R+X, fault
`(READ, 0x00400abc)`: a valid PTE with `DIRTY` clear at directory slot 2, table slot 0, and
entry-high `0x00400000`. -/
theorem vm_fault_demand_page_witness :
    ∃ pt1,
      vm_fault (some ⟨some text_as⟩) VM_FAULT_READ 0x00400abc 0x80010000 true =
        some { result := 0,
               as := some { first := text_as.first, pagetable := some pt1 },
               frames := [0x80010000],
               zeroed := [0x80010000],
               tlb := [(0x00400000, 0x00010200)] } ∧
      slot_word pt1 2 0 = 0x00010200 ∧
      ∀ i j, ¬ (i = 2 ∧ j = 0) → slot_word pt1 i j = slot_word empty_dir i j :=
  vm_fault_demand_page text_as empty_dir VM_FAULT_READ 0x00400abc 0x80010000 true
    ⟨0x00400000, 0x1000, 5, 0⟩ (Or.inl rfl) rfl
    ⟨by intro r hr; rcases List.mem_singleton.1 hr with rfl; decide, List.pairwise_singleton _ _⟩
    (by decide) rfl (List.mem_singleton.2 rfl) (by decide) (fun _ => by decide)
    (fun h => absurd h (by decide)) (by decide) (fun _ => rfl)

/-- Claim C8 as stated fails: a READ fault at `0x00400abc` in the readable region
`[0x00400000, 0x00401000)`, with no PTE installed and `alloc_kpages` returning the frame at
`0x80010000`, when the allocation of the second-level table fails: `insert_pte` returns
`ENOMEM`, `vm_fault` ignores it and reads `as->pagetable[2][0]` through the null table
pointer, so it does not return 0 with a PTE installed. -/
theorem vm_fault_table_allocation_fails :
    find_region text_as.first 0x00400abc = some ⟨0x00400000, 0x1000, 5, 0⟩ ∧
    (5 : Nat) &&& PF_R ≠ 0 ∧
    slot_word empty_dir (get_pd_bits 0x00400abc) (get_pt_bits 0x00400abc) = PTE_UNALLOCATED ∧
    insert_pte text_as 0x00400abc (KVADDR_TO_PADDR 0x80010000 &&& PAGE_FRAME) false =
      some (ENOMEM, text_as) ∧
    (vm_fault (some ⟨some text_as⟩) VM_FAULT_READ 0x00400abc 0x80010000 false).isNone = true := by
  refine ⟨by rfl, by decide, by rfl, by rfl, by rfl⟩

/-- Claim C9 at a WRITE fault on `0x00400abc` whose page holds the PTE `0x00010200`. -/
theorem vm_fault_hit_witness :
    vm_fault (some ⟨some text_mapped_as⟩) VM_FAULT_WRITE 0x00400abc 0 false =
      some { result := 0, as := some text_mapped_as, frames := [], zeroed := [],
             tlb := [(0x00400000, 0x00010200)] } :=
  vm_fault_hit text_mapped_as _ (Function.update (fun _ => PTE_UNALLOCATED) 0 0x00010200)
    VM_FAULT_WRITE 0x00400abc 0 false (Or.inr rfl) rfl (by decide) (by decide) rfl (by decide)

/-- Claim C10 at its scenario: fault `(READ, 0x10000000)` with no region covering it. -/
theorem vm_fault_outside_regions_witness :
    vm_fault (some ⟨some text_as⟩) VM_FAULT_READ 0x10000000 0x80010000 true =
      some { result := EFAULT, as := some text_as, frames := [], zeroed := [], tlb := [] } :=
  vm_fault_outside_regions text_as VM_FAULT_READ 0x10000000 0x80010000 true (Or.inl rfl)
    (by decide) (by intro pt hpt; cases hpt; rfl)
    (by intro r hr; rcases List.mem_singleton.1 hr with rfl; decide)

/-- The values `vm_fault` can return: 0, `EFAULT`, `EINVAL` or `ENOMEM`, and so never
`EPERM`. -/
theorem vm_fault_result_cases (curproc : Option proc) (faulttype : Int)
    (faultaddress alloc : Nat) (k : Bool) (out : fault_effects)
    (h : vm_fault curproc faulttype faultaddress alloc k = some out) :
    out.result = 0 ∨ out.result = EFAULT ∨ out.result = EINVAL ∨ out.result = ENOMEM := by
  unfold vm_fault at h
  cases curproc with
  | none => cases h; exact Or.inr (Or.inl rfl)
  | some p =>
    dsimp only at h
    by_cases h1 : faulttype = VM_FAULT_READONLY
    · rw [if_pos h1] at h; cases h; exact Or.inr (Or.inl rfl)
    rw [if_neg h1] at h
    by_cases h2 : ¬ (faulttype = VM_FAULT_WRITE ∨ faulttype = VM_FAULT_READ)
    · rw [if_pos h2] at h; cases h; exact Or.inr (Or.inr (Or.inl rfl))
    rw [if_neg h2] at h
    cases hp : p.p_addrspace with
    | none => rw [hp] at h; cases h; exact Or.inr (Or.inl rfl)
    | some a =>
      rw [hp] at h
      dsimp only at h
      by_cases h3 : a.pagetable.isNone = true
      · rw [if_pos h3] at h; cases h; exact Or.inr (Or.inl rfl)
      rw [if_neg h3] at h
      by_cases h4 : a.first.isEmpty = true
      · rw [if_pos h4] at h; cases h; exact Or.inr (Or.inl rfl)
      rw [if_neg h4] at h
      cases h5 : lookup_pt a faultaddress with
      | none => rw [h5] at h; cases h
      | some found =>
        rw [h5] at h
        dsimp only at h
        by_cases h6 : found ≠ PTE_UNALLOCATED
        · rw [if_pos h6] at h
          cases h7 : read_slot a (get_pd_bits faultaddress) (get_pt_bits faultaddress) with
          | none => rw [h7] at h; cases h
          | some w => rw [h7] at h; cases h; exact Or.inl rfl
        rw [if_neg h6] at h
        by_cases h8 : lookup_region a faultaddress faulttype = EFAULT
        · rw [if_pos h8] at h; cases h; exact Or.inr (Or.inl rfl)
        rw [if_neg h8] at h
        by_cases h9 : alloc = 0
        · rw [if_pos h9] at h; cases h; exact Or.inr (Or.inr (Or.inr rfl))
        rw [if_neg h9] at h
        cases h10 : insert_pte a faultaddress (KVADDR_TO_PADDR alloc &&& PAGE_FRAME) k with
        | none => rw [h10] at h; cases h
        | some res =>
          obtain ⟨code, as1⟩ := res
          rw [h10] at h
          dsimp only at h
          cases h11 : read_slot as1 (get_pd_bits faultaddress) (get_pt_bits faultaddress) with
          | none => rw [h11] at h; cases h
          | some w => rw [h11] at h; cases h; exact Or.inl rfl

/-- No call of `vm_fault` returns `EPERM`. -/
theorem vm_fault_never_EPERM (curproc : Option proc) (faulttype : Int)
    (faultaddress alloc : Nat) (k : Bool) (out : fault_effects)
    (h : vm_fault curproc faulttype faultaddress alloc k = some out) : out.result ≠ EPERM := by
  rcases vm_fault_result_cases curproc faulttype faultaddress alloc k out h with h1 | h1 | h1 | h1 <;>
    rw [h1] <;> decide


/-- Claim C20: for every 32-bit address `v`, with 32-bit shifts: `get_pd_bits v = v >> 21`
is below `NUM_PD_ENTRY`; `get_pt_bits v = (v << 11) >> 23` is below `NUM_PT_ENTRY` and is
bits 12..20 of `v`; `(get_pd_bits v << 21) | (get_pt_bits v << 12) | (v & 0xFFF) = v`; the
index range check of `insert_pte` does not fail; and the address `as_complete_load`
composes for the slot of `v` is the page base `v & PAGE_FRAME` of `v`. -/
theorem index_bits (v : Nat) (hv : v < 2 ^ 32) :
    get_pd_bits v = v >>> 21 ∧ get_pd_bits v < NUM_PD_ENTRY ∧
    get_pt_bits v = ((v <<< 11) % 2 ^ 32) >>> 23 ∧ get_pt_bits v < NUM_PT_ENTRY ∧
    get_pt_bits v = v / 2 ^ 12 % 2 ^ 9 ∧
    ((get_pd_bits v <<< 21) % 2 ^ 32) ||| ((get_pt_bits v <<< 12) % 2 ^ 32) ||| (v &&& 0xFFF) = v ∧
    ¬ (get_pd_bits v ≥ NUM_PD_ENTRY ∨ get_pt_bits v ≥ NUM_PT_ENTRY) ∧
    slot_vaddr (get_pd_bits v) (get_pt_bits v) = v &&& PAGE_FRAME ∧
    v &&& PAGE_FRAME = v / 4096 * 4096 := by
  refine ⟨rfl, get_pd_bits_lt v hv, rfl, get_pt_bits_lt v, ?_, ?_, index_in_range v hv, ?_,
    and_PAGE_FRAME v hv⟩
  · rw [get_pt_bits_eq]; omega
  · have h1 := slot_vaddr_of_bits v hv
    unfold slot_vaddr at h1
    dsimp only at h1
    rw [h1]
    have h2 : v &&& 0xFFF = v % 4096 := by
      have : (0xFFF : Nat) = 2 ^ 12 - 1 := by decide
      rw [this, Nat.and_pow_two_sub_one_eq_mod]
    have h3 : v / 4096 * 4096 = 2 ^ 12 * (v / 4096) := by omega
    rw [h2, h3, ← Nat.mul_add_lt_is_or (by omega)]
    omega
  · rw [slot_vaddr_of_bits v hv, and_PAGE_FRAME v hv]

/-- Claim C20 at `v = 0x00400abc`: directory index 2, table index 0, page base
`0x00400000`. -/
theorem index_bits_witness :
    get_pd_bits 0x00400abc = 2 ∧ get_pt_bits 0x00400abc = 0 ∧
    get_pd_bits 0x00400abc < NUM_PD_ENTRY ∧ get_pt_bits 0x00400abc < NUM_PT_ENTRY ∧
    ((get_pd_bits 0x00400abc <<< 21) % 2 ^ 32) ||| ((get_pt_bits 0x00400abc <<< 12) % 2 ^ 32)
      ||| (0x00400abc &&& 0xFFF) = 0x00400abc ∧
    slot_vaddr (get_pd_bits 0x00400abc) (get_pt_bits 0x00400abc) = 0x00400000 :=
  have h := index_bits 0x00400abc (by decide)
  ⟨by decide, by decide, h.2.1, h.2.2.2.1, h.2.2.2.2.2.1, h.2.2.2.2.2.2.2.1⟩

/-- Claim C11: the early exits of `vm_fault`, in order, for every address and every state:
without a current process it returns `EFAULT`; otherwise for `VM_FAULT_READONLY` it returns
`EFAULT`; otherwise for a fault type that is neither READ nor WRITE it returns `EINVAL`;
otherwise when the address space is absent, has no directory or has no region it returns
`EFAULT`. In each case no frame is allocated, nothing is zero-filled, no TLB entry is
written and the address space is the one before the call. -/
theorem vm_fault_early_exits (curproc : Option proc) (faulttype : Int)
    (faultaddress alloc : Nat) (k : Bool) :
    (curproc = none →
      vm_fault curproc faulttype faultaddress alloc k =
        some { result := EFAULT, as := none, frames := [], zeroed := [], tlb := [] }) ∧
    (∀ p, curproc = some p → faulttype = VM_FAULT_READONLY →
      vm_fault curproc faulttype faultaddress alloc k =
        some { result := EFAULT, as := p.p_addrspace, frames := [], zeroed := [], tlb := [] }) ∧
    (∀ p, curproc = some p → faulttype ≠ VM_FAULT_READONLY →
      faulttype ≠ VM_FAULT_READ → faulttype ≠ VM_FAULT_WRITE →
      vm_fault curproc faulttype faultaddress alloc k =
        some { result := EINVAL, as := p.p_addrspace, frames := [], zeroed := [], tlb := [] }) ∧
    (∀ p, curproc = some p → (faulttype = VM_FAULT_READ ∨ faulttype = VM_FAULT_WRITE) →
      (p.p_addrspace = none ∨
        ∃ as, p.p_addrspace = some as ∧ (as.pagetable = none ∨ as.first = [])) →
      vm_fault curproc faulttype faultaddress alloc k =
        some { result := EFAULT, as := p.p_addrspace, frames := [], zeroed := [], tlb := [] }) := by
  refine ⟨?_, ?_, ?_, ?_⟩
  · intro h; subst h; rfl
  · intro p hp hft; subst hp
    unfold vm_fault
    dsimp only
    rw [if_pos hft]
  · intro p hp h1 h2 h3; subst hp
    unfold vm_fault
    dsimp only
    rw [if_neg h1, if_pos (by intro h; rcases h with h | h; exact h3 h; exact h2 h)]
  · intro p hp hft has; subst hp
    have h1 : ¬ faulttype = VM_FAULT_READONLY := by
      rcases hft with h | h <;> rw [h] <;> decide
    have h2 : ¬ ¬ (faulttype = VM_FAULT_WRITE ∨ faulttype = VM_FAULT_READ) :=
      not_not.2 (Or.symm hft)
    unfold vm_fault
    dsimp only
    rw [if_neg h1, if_neg h2]
    rcases has with hn | ⟨as, has, hc⟩
    · rw [hn]
    · rw [has]
      dsimp only
      rcases hc with hc | hc
      · rw [hc]; rfl
      · by_cases h3 : as.pagetable.isNone = true
        · rw [if_pos h3]
        · rw [if_neg h3, hc]; rfl

/-- Claim C11 at a READONLY fault, at the unknown fault type 7, and at a READ fault on an
address space without regions. -/
theorem vm_fault_early_exits_witness :
    vm_fault (some ⟨some text_as⟩) VM_FAULT_READONLY 0x00400abc 0x80010000 true =
      some { result := EFAULT, as := some text_as, frames := [], zeroed := [], tlb := [] } ∧
    vm_fault (some ⟨some text_as⟩) 7 0x00400abc 0x80010000 true =
      some { result := EINVAL, as := some text_as, frames := [], zeroed := [], tlb := [] } ∧
    vm_fault (some ⟨some ⟨[], some empty_dir⟩⟩) VM_FAULT_READ 0x10000000 0x80010000 true =
      some { result := EFAULT, as := some ⟨[], some empty_dir⟩, frames := [], zeroed := [],
             tlb := [] } :=
  ⟨(vm_fault_early_exits (some ⟨some text_as⟩) VM_FAULT_READONLY 0x00400abc 0x80010000 true).2.1
      ⟨some text_as⟩ rfl rfl,
   (vm_fault_early_exits (some ⟨some text_as⟩) 7 0x00400abc 0x80010000 true).2.2.1
      ⟨some text_as⟩ rfl (by decide) (by decide) (by decide),
   (vm_fault_early_exits (some ⟨some ⟨[], some empty_dir⟩⟩) VM_FAULT_READ 0x10000000
      0x80010000 true).2.2.2 ⟨some ⟨[], some empty_dir⟩⟩ rfl (Or.inl rfl)
      (Or.inr ⟨_, rfl, Or.inr rfl⟩)⟩

/-- Claim C18: when the slot of a 32-bit address `vaddr` already holds a word other than
the sentinel, `insert_pte` returns `EFAULT` for every `paddr`, whatever the allocator would
do, and the address space (page table and region list) is unchanged. -/
theorem insert_pte_populated (as : addrspace) (pt : Nat → Option (Nat → Nat)) (t : Nat → Nat)
    (vaddr paddr : Nat) (k : Bool) (hpt : as.pagetable = some pt) (hv : vaddr < 2 ^ 32)
    (ht : pt (get_pd_bits vaddr) = some t)
    (hw : t (get_pt_bits vaddr) ≠ PTE_UNALLOCATED) :
    insert_pte as vaddr paddr k = some (EFAULT, as) := by
  rw [insert_pte_eq as pt vaddr paddr k hpt hv, ht]
  unfold table_or_fresh
  dsimp only
  rw [if_pos hw]
  have : Function.update pt (get_pd_bits vaddr) (some t) = pt := by
    rw [← ht]; exact Function.update_eq_self _ _
  rw [this, ← hpt]

/-- Claim C18 at the mapped page of `0x00400abc`. -/
theorem insert_pte_populated_witness :
    insert_pte text_mapped_as 0x00400abc 0x00020000 true = some (EFAULT, text_mapped_as) :=
  insert_pte_populated text_mapped_as _ (Function.update (fun _ => PTE_UNALLOCATED) 0 0x00010200)
    0x00400abc 0x00020000 true rfl (by decide) rfl (by decide)

theorem and_PAGE_FRAME_mod (a : Nat) : a &&& PAGE_FRAME = a % 2 ^ 32 / 4096 * 4096 := by
  have h : a &&& PAGE_FRAME = (a % 2 ^ 32) &&& PAGE_FRAME := by
    apply Nat.eq_of_testBit_eq
    intro i
    have hM : PAGE_FRAME = 2 ^ 12 * (2 ^ 20 - 1) := by decide
    rw [Nat.testBit_and, Nat.testBit_and, Nat.testBit_mod_two_pow, hM, Nat.testBit_mul_pow_two,
      Nat.testBit_two_pow_sub_one]
    by_cases h32 : i < 32
    · simp [h32]
    · have : ¬ (i - 12 < 20) := by omega
      simp [h32, this]
  rw [h, and_PAGE_FRAME _ (Nat.mod_lt _ (by decide))]

/-- Masking after the move into the kernel window is the move of the masked frame:
`PADDR_TO_KVADDR(pte) & PAGE_FRAME = PADDR_TO_KVADDR(pte & PAGE_FRAME)`. -/
theorem kvaddr_mask_comm (w : Nat) :
    PADDR_TO_KVADDR w &&& PAGE_FRAME = PADDR_TO_KVADDR (w &&& PAGE_FRAME) := by
  unfold PADDR_TO_KVADDR
  rw [and_PAGE_FRAME_mod, and_PAGE_FRAME_mod]
  unfold MIPS_KSEG0
  omega

/-- The nested loops of `as_destroy` with loop bounds `n` and `m`: the list of calls is the
image of a duplicate-free list of exactly the installed slots. -/
theorem destroy_loops (n m : Nat) (pt : Nat → Option (Nat → Nat)) :
    ∃ slots : List (Nat × Nat), slots.Nodup ∧
      (∀ i j, (i, j) ∈ slots ↔ i < n ∧ j < m ∧ slot_word pt i j ≠ PTE_UNALLOCATED) ∧
      (List.range n).flatMap (fun i =>
          match pt i with
          | none => []
          | some t => ((List.range m).filter (fun j => decide (t j ≠ PTE_UNALLOCATED))).map
              (fun j => PADDR_TO_KVADDR (t j) &&& PAGE_FRAME)) =
        slots.map (fun s => PADDR_TO_KVADDR (slot_word pt s.1 s.2 &&& PAGE_FRAME)) := by
  refine ⟨(List.range n).flatMap (fun i =>
    match pt i with
    | none => []
    | some t => ((List.range m).filter
        (fun j => decide (t j ≠ PTE_UNALLOCATED))).map (fun j => (i, j))), ?_, ?_, ?_⟩
  · rw [List.nodup_flatMap]
    constructor
    · intro i _
      cases pt i with
      | none => exact List.nodup_nil
      | some t =>
        exact ((List.nodup_range m).filter _).map (fun a b h => (Prod.mk.inj h).2)
    · refine (List.nodup_range n).imp ?_
      intro a b hab
      show List.Disjoint _ _
      intro x hxa hxb
      dsimp only at hxa hxb
      cases hpa : pt a with
      | none => rw [hpa] at hxa; cases hxa
      | some ta =>
        cases hpb : pt b with
        | none => rw [hpb] at hxb; cases hxb
        | some tb =>
          rw [hpa] at hxa; rw [hpb] at hxb
          obtain ⟨ja, _, rfl⟩ := List.mem_map.1 hxa
          obtain ⟨jb, _, hjb⟩ := List.mem_map.1 hxb
          exact hab (Prod.mk.inj hjb).1.symm
  · intro i j
    rw [List.mem_flatMap]
    unfold slot_word
    constructor
    · rintro ⟨a, ha, hm⟩
      cases hpa : pt a with
      | none => rw [hpa] at hm; cases hm
      | some t =>
        rw [hpa] at hm
        obtain ⟨j1, hj1, heq⟩ := List.mem_map.1 hm
        obtain ⟨rfl, rfl⟩ := Prod.mk.inj heq
        rw [List.mem_filter] at hj1
        rw [hpa]
        exact ⟨List.mem_range.1 ha, List.mem_range.1 hj1.1, of_decide_eq_true hj1.2⟩
    · rintro ⟨hi, hj, hne⟩
      refine ⟨i, List.mem_range.2 hi, ?_⟩
      cases hpi : pt i with
      | none => rw [hpi] at hne; exact absurd rfl hne
      | some t =>
        rw [hpi] at hne
        exact List.mem_map.2 ⟨j, List.mem_filter.2 ⟨List.mem_range.2 hj, decide_eq_true hne⟩, rfl⟩
  · rw [List.map_flatMap]
    refine congrArg (List.flatMap (List.range n)) (funext fun i => ?_)
    cases hpi : pt i with
    | none => rfl
    | some t =>
      dsimp only
      rw [List.map_map]
      refine List.map_congr_left (fun j _ => ?_)
      have h : slot_word pt i j = t j := by unfold slot_word; rw [hpi]
      rw [Function.comp_apply, show slot_word pt (i, j).1 (i, j).2 = t j from h]
      exact kvaddr_mask_comm (t j)

/-- The slots of the page table that hold an installed PTE, in the order `as_destroy` visits
them. -/
theorem destroy_slots (pt : Nat → Option (Nat → Nat)) :
    ∃ slots : List (Nat × Nat), slots.Nodup ∧
      (∀ i j, (i, j) ∈ slots ↔
        i < NUM_PD_ENTRY ∧ j < NUM_PT_ENTRY ∧ slot_word pt i j ≠ PTE_UNALLOCATED) ∧
      (List.range NUM_PD_ENTRY).flatMap (fun i => destroy_entry (pt i)) =
        slots.map (fun s => PADDR_TO_KVADDR (slot_word pt s.1 s.2 &&& PAGE_FRAME)) := by
  obtain ⟨slots, h1, h2, h3⟩ := destroy_loops NUM_PD_ENTRY NUM_PT_ENTRY pt
  refine ⟨slots, h1, h2, ?_⟩
  rw [← h3]
  refine congrArg (List.flatMap (List.range NUM_PD_ENTRY)) (funext fun i => ?_)
  unfold destroy_entry destroy_table
  cases pt i <;> rfl

theorem as_destroy_eq (as : addrspace) (pt : Nat → Option (Nat → Nat))
    (hpt : as.pagetable = some pt) :
    as_destroy as =
      some { free_kpages := (List.range NUM_PD_ENTRY).flatMap (fun i => destroy_entry (pt i)),
             kfree_tables := (List.range NUM_PD_ENTRY).filter (fun i => (pt i).isSome),
             kfree_regions := as.first.length } := by
  unfold as_destroy
  rw [hpt]

/-- Claim C16: on an address space with a directory, `as_destroy` returns, and the
arguments of its `free_kpages` calls are the kernel-window addresses
`PADDR_TO_KVADDR(pte & PAGE_FRAME)` of a duplicate-free list of exactly the slots `(i, j)`,
`i < NUM_PD_ENTRY`, `j < NUM_PT_ENTRY`, that hold a word other than the sentinel: one call
for each installed PTE and no other call, so as many frames are released as PTEs are
installed. -/
theorem as_destroy_frees (as : addrspace) (pt : Nat → Option (Nat → Nat))
    (hpt : as.pagetable = some pt) :
    ∃ e slots, as_destroy as = some e ∧ List.Nodup slots ∧
      (∀ i j, (i, j) ∈ slots ↔
        i < NUM_PD_ENTRY ∧ j < NUM_PT_ENTRY ∧ slot_word pt i j ≠ PTE_UNALLOCATED) ∧
      e.free_kpages =
        slots.map (fun s => PADDR_TO_KVADDR (slot_word pt s.1 s.2 &&& PAGE_FRAME)) ∧
      e.free_kpages.length = slots.length := by
  obtain ⟨slots, hnd, hmem, heq⟩ := destroy_slots pt
  refine ⟨_, slots, as_destroy_eq as pt hpt, hnd, hmem, ?_, ?_⟩
  · dsimp only
    exact heq
  · dsimp only
    rw [heq, List.length_map]

/-- The frame of every installed PTE is among the frames `as_destroy` releases. -/
theorem as_destroy_frees_mem (as : addrspace) (pt : Nat → Option (Nat → Nat))
    (hpt : as.pagetable = some pt) (i j : Nat) (hi : i < NUM_PD_ENTRY) (hj : j < NUM_PT_ENTRY)
    (hne : slot_word pt i j ≠ PTE_UNALLOCATED) :
    ∃ e, as_destroy as = some e ∧
      PADDR_TO_KVADDR (slot_word pt i j &&& PAGE_FRAME) ∈ e.free_kpages := by
  obtain ⟨slots, _, hmem, heq⟩ := destroy_slots pt
  refine ⟨_, as_destroy_eq as pt hpt, ?_⟩
  dsimp only
  rw [heq]
  exact List.mem_map.2 ⟨(i, j), (hmem i j).2 ⟨hi, hj, hne⟩, rfl⟩

/-- Claim C16 at the address space with the one mapped page of `0x00400000`. -/
theorem as_destroy_frees_witness :
    ∃ e slots, as_destroy text_mapped_as = some e ∧ List.Nodup slots ∧
      (∀ i j, (i, j) ∈ slots ↔
        i < NUM_PD_ENTRY ∧ j < NUM_PT_ENTRY ∧
        slot_word (Function.update empty_dir 2
          (some (Function.update (fun _ => PTE_UNALLOCATED) 0 0x00010200))) i j
          ≠ PTE_UNALLOCATED) ∧
      e.free_kpages =
        slots.map (fun s => PADDR_TO_KVADDR (slot_word (Function.update empty_dir 2
          (some (Function.update (fun _ => PTE_UNALLOCATED) 0 0x00010200))) s.1 s.2
          &&& PAGE_FRAME)) ∧
      e.free_kpages.length = slots.length :=
  as_destroy_frees text_mapped_as _ rfl

/-- Claim C12 at a directory block that `kmalloc` hands out with the contents an earlier
directory left in it: `as_create` clears the slots below `NUM_PT_ENTRY` only, so slot 1023
of the new directory still points to the old table; `lookup_pt` returns the frame
`0x00020000` for the address `0x7FFFF000`, and `as_destroy` releases that frame. -/
theorem as_create_stale_directory :
    as_create true (some stale_dir) = some stale_as ∧
    read_slot stale_as 1023 511 = some 0x00020600 ∧
    lookup_pt stale_as 0x7FFFF000 = some 0x00020000 ∧
    ∃ e, as_destroy stale_as = some e ∧ 0x80020000 ∈ e.free_kpages := by
  refine ⟨rfl, by rfl, by rfl, ?_⟩
  exact as_destroy_frees_mem stale_as _ rfl 1023 511 (by decide) (by decide) (by decide)

/-- A request of size 0 at a page-aligned address up to the kernel boundary: `check_region`
comes down to its overlap loop with `new_end = vaddr`. -/
theorem check_region_empty (a : addrspace) (vaddr : Nat) (hk : vaddr ≤ MIPS_KSEG0) :
    check_region a vaddr 0 = check_region_scan vaddr vaddr a.first := by
  have hK : MIPS_KSEG0 = 2147483648 := rfl
  rw [check_region_no_wrap a vaddr 0 (by omega), if_neg (by omega)]
  rfl

/-- A request of size 0 whose address lies strictly inside an existing region is rejected
with `EINVAL`. -/
theorem as_define_region_empty_rejected (a : addrspace) (vaddr : Nat)
    (readable writeable executable : Int) (k : Option Nat)
    (hal : vaddr % 4096 = 0) (hk : vaddr ≤ MIPS_KSEG0)
    (r : region) (hr : r ∈ a.first) (hrw : r.base_addr + r.memsize < 2 ^ 32)
    (h1 : r.base_addr < vaddr) (h2 : vaddr < r.base_addr + r.memsize) :
    check_region a vaddr 0 = EINVAL ∧
    as_define_region (some a) vaddr 0 readable writeable executable k = (EINVAL, some a) := by
  have hK : MIPS_KSEG0 = 2147483648 := rfl
  have hc : check_region a vaddr 0 = EINVAL := by
    rw [check_region_empty a vaddr hk]
    apply check_region_scan_hit _ _ _ r hr
    rw [Nat.mod_eq_of_lt hrw]
    exact ⟨h2, h1⟩
  refine ⟨hc, ?_⟩
  have hb : aligned_base vaddr = vaddr := by unfold aligned_base; omega
  have hs : aligned_size vaddr 0 % 2 ^ 32 = 0 := by unfold aligned_size; omega
  rw [as_define_region_unfold a vaddr 0 readable writeable executable k (by omega), hb, hs, hc]
  rfl

/-- A request of size 0 whose address lies strictly inside no existing region passes
`check_region`, and the call returns 0 when the node allocation succeeds. -/
theorem as_define_region_empty_accepted (a : addrspace) (vaddr : Nat)
    (readable writeable executable : Int) (g : Nat)
    (hal : vaddr % 4096 = 0) (hk : vaddr ≤ MIPS_KSEG0)
    (hout : ∀ r ∈ a.first, ¬ (r.base_addr < vaddr ∧ vaddr < r.base_addr + r.memsize)) :
    check_region a vaddr 0 = 0 ∧
    (as_define_region (some a) vaddr 0 readable writeable executable (some g)).1 = 0 := by
  have hK : MIPS_KSEG0 = 2147483648 := rfl
  have hc : check_region a vaddr 0 = 0 := by
    rw [check_region_empty a vaddr hk]
    apply check_region_scan_zero
    intro r hr hcon
    have hle : (r.base_addr + r.memsize) % 2 ^ 32 ≤ r.base_addr + r.memsize := Nat.mod_le _ _
    exact hout r hr ⟨hcon.2, by omega⟩
  refine ⟨hc, ?_⟩
  have hb : aligned_base vaddr = vaddr := by unfold aligned_base; omega
  have hs : aligned_size vaddr 0 % 2 ^ 32 = 0 := by unfold aligned_size; omega
  rw [as_define_region_unfold a vaddr 0 readable writeable executable _ (by omega), hb, hs, hc]
  rfl

/-- Claim C19 at the page-aligned address `0x7FFFF000` inside the stack region
`[0x7FFEE000, 0x80000000)`: the size after alignment is 0, yet `check_region` returns
`EINVAL` and so does `as_define_region`, which changes nothing. -/
theorem as_define_region_empty_in_stack :
    0x7FFFF000 % 4096 = 0 ∧ 0x7FFFF000 ≤ MIPS_KSEG0 ∧
    aligned_size 0x7FFFF000 0 = 0 ∧
    check_region stack_as 0x7FFFF000 0 = EINVAL ∧
    as_define_region (some stack_as) 0x7FFFF000 0 1 1 0 (some 0) = (EINVAL, some stack_as) := by
  refine ⟨by decide, by decide, by decide, by rfl, by rfl⟩

/-- When the directory slot of the page is null and the table cannot be allocated,
`insert_pte` returns `ENOMEM` without a change, and a `vm_fault` that got that far goes on
to read the slot through the null table pointer. -/
theorem vm_fault_enomem_ignored (as : addrspace) (pt : Nat → Option (Nat → Nat))
    (faulttype : Int) (faultaddress alloc : Nat) (r : region)
    (hft : faulttype = VM_FAULT_READ ∨ faulttype = VM_FAULT_WRITE)
    (hpt : as.pagetable = some pt) (hv : faultaddress < 2 ^ 32)
    (hnull : pt (get_pd_bits faultaddress) = none)
    (hfind : find_region as.first faultaddress = some r)
    (halloc : alloc ≠ 0) :
    insert_pte as faultaddress (KVADDR_TO_PADDR alloc &&& PAGE_FRAME) false =
      some (ENOMEM, as) ∧
    vm_fault (some ⟨some as⟩) faulttype faultaddress alloc false = none := by
  have hne : as.first ≠ [] := by
    intro h; rw [h] at hfind; cases hfind
  have hm : slot_word pt (get_pd_bits faultaddress) (get_pt_bits faultaddress) =
      PTE_UNALLOCATED := by
    unfold slot_word; rw [hnull]
  have hins : insert_pte as faultaddress (KVADDR_TO_PADDR alloc &&& PAGE_FRAME) false =
      some (ENOMEM, as) := by
    rw [insert_pte_eq as pt faultaddress _ false hpt hv, hnull]
    rfl
  refine ⟨hins, ?_⟩
  rw [vm_fault_miss_eq as pt faulttype faultaddress alloc false hft hpt hne hv hm,
    if_neg (lookup_region_found as faultaddress faulttype r hfind), if_neg halloc, hins]
  dsimp only
  unfold read_slot
  rw [hpt]
  dsimp only
  rw [hnull]

/-- Claim C17 at a WRITE fault on `0x7FFFFFF0` in the stack region, with `alloc_kpages`
returning the frame at `0x80010000` and the allocation of the second-level table failing:
`insert_pte` returns `ENOMEM` and leaves the address space as it was; `vm_fault` does not
return `ENOMEM` but goes on to read `as->pagetable[1023][511]` through the null table
pointer. -/
theorem vm_fault_stack_table_fails :
    find_region stack_as.first 0x7FFFFFF0 = some ⟨0x7FFEE000, 0x12000, 6, 0⟩ ∧
    insert_pte stack_as 0x7FFFFFF0 (KVADDR_TO_PADDR 0x80010000 &&& PAGE_FRAME) false =
      some (ENOMEM, stack_as) ∧
    read_slot stack_as (get_pd_bits 0x7FFFFFF0) (get_pt_bits 0x7FFFFFF0) = none ∧
    vm_fault (some ⟨some stack_as⟩) VM_FAULT_WRITE 0x7FFFFFF0 0x80010000 false = none := by
  refine ⟨by rfl, by rfl, by rfl, by rfl⟩

/-- `lookup_pt` on an address space with a directory and a 32-bit address, in terms of the
word of the slot. -/
theorem lookup_pt_eq (as : addrspace) (pt : Nat → Option (Nat → Nat)) (vaddr : Nat)
    (hpt : as.pagetable = some pt) (hv : vaddr < 2 ^ 32) :
    lookup_pt as vaddr =
      some (if slot_word pt (get_pd_bits vaddr) (get_pt_bits vaddr) = PTE_UNALLOCATED then
              PTE_UNALLOCATED
            else slot_word pt (get_pd_bits vaddr) (get_pt_bits vaddr) &&& PAGE_FRAME) := by
  by_cases hm : slot_word pt (get_pd_bits vaddr) (get_pt_bits vaddr) = PTE_UNALLOCATED
  · rw [if_pos hm]
    exact lookup_pt_miss as pt vaddr hpt hv hm
  · rw [if_neg hm]
    cases hpd : pt (get_pd_bits vaddr) with
    | none =>
      exfalso; apply hm
      unfold slot_word; rw [hpd]
    | some t =>
      have hw : t (get_pt_bits vaddr) ≠ PTE_UNALLOCATED := by
        intro h; apply hm
        unfold slot_word; rw [hpd]; exact h
      rw [lookup_pt_hit as pt t vaddr hpt hv hpd hw]
      unfold slot_word
      rw [hpd]

theorem table_or_fresh_slots (pt : Nat → Option (Nat → Nat)) (i : Nat) (k : Bool)
    (t : Nat → Nat) (h : table_or_fresh (pt i) k = some t) :
    ∀ j, t j = slot_word pt i j := by
  intro j
  unfold table_or_fresh at h
  unfold slot_word
  cases hpi : pt i with
  | some t0 =>
    rw [hpi] at h
    cases h; rfl
  | none =>
    rw [hpi] at h
    dsimp only at h
    by_cases hk : k = true
    · rw [if_pos hk] at h
      cases h; rfl
    · rw [if_neg hk] at h; cases h

/-- What a successful `insert_pte` has done: the region search found `curr`, the slot of the
address was free and now holds the composed word, every other slot keeps its word and the
region list is the same. -/
theorem insert_pte_ok (as as1 : addrspace) (pt : Nat → Option (Nat → Nat))
    (vaddr paddr : Nat) (k : Bool) (hpt : as.pagetable = some pt) (hv : vaddr < 2 ^ 32)
    (h : insert_pte as vaddr paddr k = some (0, as1)) :
    ∃ curr pt1, find_region as.first vaddr = some curr ∧
      as1 = { first := as.first, pagetable := some pt1 } ∧
      slot_word pt (get_pd_bits vaddr) (get_pt_bits vaddr) = PTE_UNALLOCATED ∧
      slot_word pt1 (get_pd_bits vaddr) (get_pt_bits vaddr) = compose_pte curr paddr ∧
      ∀ i j, ¬ (i = get_pd_bits vaddr ∧ j = get_pt_bits vaddr) →
        slot_word pt1 i j = slot_word pt i j := by
  rw [insert_pte_eq as pt vaddr paddr k hpt hv] at h
  cases hf : table_or_fresh (pt (get_pd_bits vaddr)) k with
  | none =>
    rw [hf] at h
    exact absurd (Prod.mk.inj (Option.some.inj h)).1 (by decide)
  | some t =>
    rw [hf] at h
    dsimp only at h
    have hts := table_or_fresh_slots pt _ k t hf
    by_cases hp : t (get_pt_bits vaddr) ≠ PTE_UNALLOCATED
    · rw [if_pos hp] at h
      exact absurd (Prod.mk.inj (Option.some.inj h)).1 (by decide)
    · rw [if_neg hp] at h
      cases hfr : find_region as.first vaddr with
      | none => rw [hfr] at h; cases h
      | some curr =>
        rw [hfr] at h
        cases h
        refine ⟨curr, _, rfl, rfl, ?_, ?_, ?_⟩
        · rw [← hts]; exact not_not.1 hp
        · unfold slot_word
          rw [Function.update_same]
          dsimp only
          rw [Function.update_same]
        · intro i j hij
          unfold slot_word
          by_cases hi : i = get_pd_bits vaddr
          · subst hi
            have hj : j ≠ get_pt_bits vaddr := fun h => hij ⟨rfl, h⟩
            rw [Function.update_same]
            dsimp only
            rw [Function.update_noteq hj, hts j]
            rfl
          · rw [Function.update_noteq hi]

/-- For a page-aligned 32-bit physical address the composed PTE is the address plus its flag
bits: masking gives the address back and the word is never the sentinel. -/
theorem compose_pte_aligned (curr : region) (p : Nat) (hp : p % 4096 = 0) (hp32 : p < 2 ^ 32) :
    compose_pte curr p &&& PAGE_FRAME = p ∧ compose_pte curr p ≠ PTE_UNALLOCATED := by
  have hq : p = 2 ^ 12 * (p / 4096) := by omega
  have hS : PTE_UNALLOCATED = 4294967295 := rfl
  have hV : TLBLO_VALID = 512 := rfl
  have hD : TLBLO_DIRTY = 1024 := rfl
  have hval : compose_pte curr p = p + 512 ∨ compose_pte curr p = p + 1536 := by
    rw [compose_pte_eq]
    by_cases hw : curr.permissions &&& PF_W ≠ 0
    · right
      rw [if_pos hw, Nat.or_assoc, hV, hD, show (512 : Nat) ||| 1024 = 1536 from by decide, hq,
        ← Nat.mul_add_lt_is_or (by decide)]
    · left
      rw [if_neg hw, Nat.or_zero, hV, hq, ← Nat.mul_add_lt_is_or (by decide)]
  rcases hval with h | h
  · rw [h, and_PAGE_FRAME _ (by omega)]
    constructor <;> omega
  · rw [h, and_PAGE_FRAME _ (by omega)]
    constructor <;> omega

theorem same_slot_same_page (v w : Nat)
    (h1 : get_pd_bits w = get_pd_bits v) (h2 : get_pt_bits w = get_pt_bits v) :
    w / 4096 = v / 4096 := by
  rw [get_pd_bits_eq, get_pd_bits_eq] at h1
  rw [get_pt_bits_eq, get_pt_bits_eq] at h2
  omega

/-- Claim C13: on an address space with a directory, for a 32-bit address `v` and a
page-aligned 32-bit physical address `p`: when `insert_pte as v p` returns 0 then
`lookup_pt` on the resulting address space returns `p` at `v`, `p` is not the sentinel, and
at every 32-bit address on a different page `lookup_pt` returns what it returned before.
A return value of 0 implies that `v` lies in a region. -/
theorem insert_then_lookup (as as1 : addrspace) (pt : Nat → Option (Nat → Nat))
    (v p : Nat) (k : Bool) (hpt : as.pagetable = some pt) (hv : v < 2 ^ 32)
    (hp : p % 4096 = 0) (hp32 : p < 2 ^ 32)
    (h : insert_pte as v p k = some (0, as1)) :
    lookup_pt as1 v = some p ∧ p ≠ PTE_UNALLOCATED ∧
    ∀ w, w < 2 ^ 32 → w / 4096 ≠ v / 4096 → lookup_pt as1 w = lookup_pt as w := by
  obtain ⟨curr, pt1, _, has1, _, hslot, hother⟩ := insert_pte_ok as as1 pt v p k hpt hv h
  have hpt1 : as1.pagetable = some pt1 := by rw [has1]
  obtain ⟨hmask, hne⟩ := compose_pte_aligned curr p hp hp32
  have hS : PTE_UNALLOCATED = 4294967295 := rfl
  refine ⟨?_, by omega, ?_⟩
  · rw [lookup_pt_eq as1 pt1 v hpt1 hv, hslot, if_neg hne, hmask]
  · intro w hw hpage
    have hd : ¬ (get_pd_bits w = get_pd_bits v ∧ get_pt_bits w = get_pt_bits v) :=
      fun hc => hpage (same_slot_same_page v w hc.1 hc.2)
    rw [lookup_pt_eq as1 pt1 w hpt1 hw, lookup_pt_eq as pt w hpt hw, hother _ _ hd]

/-- Claim C13 at `v = 0x00400abc`, `p = 0x00010000` in the region
`[0x00400000, 0x00401000)`. -/
theorem insert_then_lookup_witness :
    lookup_pt text_mapped_as 0x00400abc = some 0x00010000 ∧
    ∀ w, w < 2 ^ 32 → w / 4096 ≠ 0x00400abc / 4096 →
      lookup_pt text_mapped_as w = lookup_pt text_as w :=
  have h := insert_then_lookup text_as text_mapped_as empty_dir 0x00400abc 0x00010000 true
    rfl (by decide) (by decide) (by decide) (by rfl)
  ⟨h.1, h.2.2⟩

/-- A loop over `0 .. n - 1` whose step `k` reads and writes only entry `k`: the result
relates every entry below `n` to the initial one and leaves the others alone. -/
theorem foldlM_range_pointwise {β : Type} (f : (Nat → β) → Nat → Option (Nat → β))
    (R : Nat → β → β → Prop) (g0 : Nat → β) (n : Nat)
    (step : ∀ k, k < n →
      ∃ b, R k (g0 k) b ∧ ∀ g, g k = g0 k → f g k = some (Function.update g k b)) :
    ∃ g1, (List.range n).foldlM f g0 = some g1 ∧
      (∀ k, k < n → R k (g0 k) (g1 k)) ∧ (∀ k, n ≤ k → g1 k = g0 k) := by
  induction n with
  | zero =>
    exact ⟨g0, rfl, fun k hk => absurd hk (Nat.not_lt_zero k), fun _ _ => rfl⟩
  | succ n ih =>
    obtain ⟨g1, h1, hR, hrest⟩ := ih (fun k hk => step k (Nat.lt_succ_of_lt hk))
    obtain ⟨b, hb, hf⟩ := step n (Nat.lt_succ_self n)
    refine ⟨Function.update g1 n b, ?_, ?_, ?_⟩
    · rw [List.range_succ, List.foldlM_append, h1]
      show (List.foldlM f g1 [n]) = _
      rw [List.foldlM_cons, hf g1 (hrest n (Nat.le_refl n))]
      rfl
    · intro k hk
      by_cases hkn : k = n
      · subst hkn
        rw [Function.update_same]; exact hb
      · rw [Function.update_noteq hkn]
        exact hR k (by omega)
    · intro k hk
      have hkn : k ≠ n := by omega
      rw [Function.update_noteq hkn]
      exact hrest k (by omega)


theorem complete_load_slot_step (first : List region) (i : Nat) (t : Nat → Nat) (j : Nat)
    (hj : j < NUM_PT_ENTRY) (hs : table_searchable first i t) :
    ∃ b, slot_completed first i j (t j) b ∧
      ∀ g : Nat → Nat, g j = t j →
        complete_load_slot first i g j = some (Function.update g j b) := by
  by_cases hw : t j ≠ PTE_UNALLOCATED
  · have hfind := hs j hj hw
    cases hf : find_region first (slot_vaddr i j) with
    | none => rw [hf] at hfind; cases hfind
    | some curr =>
      refine ⟨completed_word curr (t j), Or.inr ⟨hw, curr, hf, rfl⟩, ?_⟩
      intro g hg
      unfold complete_load_slot completed_word
      rw [hg, if_pos hw]
      dsimp only
      rw [hf]
      dsimp only
      by_cases ho : curr.old_permissions &&& PF_W = 0
      · rw [if_pos ho, if_pos ho]
      · rw [if_neg ho, if_neg ho, ← hg, Function.update_eq_self]
  · have hw0 : t j = PTE_UNALLOCATED := not_not.1 hw
    refine ⟨PTE_UNALLOCATED, Or.inl ⟨hw0, rfl⟩, ?_⟩
    intro g hg
    unfold complete_load_slot
    rw [hg, if_neg hw, ← hw0, ← hg, Function.update_eq_self]

/-- The inner loop of `as_complete_load`, slot by slot. -/
theorem complete_load_table_spec (first : List region) (i : Nat) (t : Nat → Nat)
    (hs : table_searchable first i t) :
    ∃ t1, complete_load_table first i t = some t1 ∧
      (∀ j, j < NUM_PT_ENTRY → slot_completed first i j (t j) (t1 j)) ∧
      (∀ j, NUM_PT_ENTRY ≤ j → t1 j = t j) :=
  foldlM_range_pointwise (fun t1 j => complete_load_slot first i t1 j)
    (slot_completed first i) t NUM_PT_ENTRY
    (fun j hj => complete_load_slot_step first i t j hj hs)

theorem complete_load_entry_step (first : List region) (pt : Nat → Option (Nat → Nat))
    (i : Nat) (hi : i < NUM_PD_ENTRY) (hs : dir_searchable first pt) :
    ∃ b, entry_completed first i (pt i) b ∧
      ∀ g : Nat → Option (Nat → Nat), g i = pt i →
        complete_load_entry first g i = some (Function.update g i b) := by
  cases hpi : pt i with
  | none =>
    refine ⟨none, Or.inl ⟨rfl, rfl⟩, ?_⟩
    intro g hg
    unfold complete_load_entry
    rw [hg]
    dsimp only
    rw [← hg, Function.update_eq_self]
  | some t =>
    obtain ⟨t1, ht1, h1, h2⟩ := complete_load_table_spec first i t (hs i hi t hpi)
    refine ⟨some t1, Or.inr ⟨t, t1, rfl, rfl, h1, h2⟩, ?_⟩
    intro g hg
    unfold complete_load_entry
    rw [hg]
    dsimp only
    rw [ht1]
    rfl

/-- The outer loop of `as_complete_load`, directory slot by directory slot. -/
theorem complete_load_walk_spec (first : List region) (pt : Nat → Option (Nat → Nat))
    (hs : dir_searchable first pt) :
    ∃ pt1, complete_load_walk first pt = some pt1 ∧
      (∀ i, i < NUM_PD_ENTRY → entry_completed first i (pt i) (pt1 i)) ∧
      (∀ i, NUM_PD_ENTRY ≤ i → pt1 i = pt i) :=
  foldlM_range_pointwise (fun pt1 i => complete_load_entry first pt1 i)
    (entry_completed first) pt NUM_PD_ENTRY
    (fun i hi => complete_load_entry_step first pt i hi hs)

theorem and_two_pow_eq_zero (a k : Nat) (h : a / 2 ^ k % 2 = 0) : a &&& 2 ^ k = 0 := by
  apply Nat.eq_of_testBit_eq
  intro i
  rw [Nat.testBit_and, Nat.testBit_two_pow, Nat.zero_testBit]
  by_cases hki : k = i
  · subst hki
    rw [Nat.testBit_to_div_mod]
    simp [h]
  · simp [hki]

theorem and_two_pow_ne_zero (a k : Nat) (h : a / 2 ^ k % 2 = 1) : a &&& 2 ^ k ≠ 0 := by
  intro h0
  have : (a &&& 2 ^ k).testBit k = true := by
    rw [Nat.testBit_and, Nat.testBit_two_pow_self, Nat.testBit_to_div_mod]
    simp [h]
  rw [h0, Nat.zero_testBit] at this
  exact Bool.noConfusion this

/-- The word `as_complete_load` writes for a region saved without `PF_W`: the frame bits of
the old word plus `TLBLO_VALID`. -/
theorem completed_word_readonly (curr : region) (w : Nat)
    (ho : curr.old_permissions &&& PF_W = 0) :
    completed_word curr w = w % 2 ^ 32 / 4096 * 4096 + 512 := by
  unfold completed_word
  rw [if_pos ho, and_PAGE_FRAME_mod]
  have hx : w % 2 ^ 32 / 4096 * 4096 &&& (0xFFFFFFFF - PF_W) = w % 2 ^ 32 / 4096 * 4096 := by
    have hM : 0xFFFFFFFF - PF_W = 2 ^ 32 - (2 + 1) := by decide
    apply Nat.eq_of_testBit_eq
    intro i
    rw [hM, Nat.testBit_and, Nat.testBit_two_pow_sub_succ (by decide)]
    by_cases hb : (w % 2 ^ 32 / 4096 * 4096).testBit i = true
    · have hi32 : i < 32 := by
        by_contra hc
        have hlt : w % 2 ^ 32 / 4096 * 4096 < 2 ^ i :=
          lt_of_lt_of_le (by omega) (Nat.pow_le_pow_right (by decide) (Nat.le_of_not_lt hc))
        rw [Nat.testBit_lt_two_pow hlt] at hb
        exact Bool.noConfusion hb
      have hi1 : i ≠ 1 := by
        intro h1
        subst h1
        rw [Nat.testBit_to_div_mod] at hb
        have hb1 := of_decide_eq_true hb
        omega
      have h2 : Nat.testBit 2 i = false := by
        have : (2 : Nat) = 2 ^ 1 := by decide
        rw [this, Nat.testBit_two_pow]
        simp [Ne.symm hi1]
      rw [hb, h2]
      simp [hi32]
    · have hb0 : (w % 2 ^ 32 / 4096 * 4096).testBit i = false := by
        cases h : (w % 2 ^ 32 / 4096 * 4096).testBit i with
        | false => rfl
        | true => exact absurd h hb
      rw [hb0]
      rfl
  have hq : w % 2 ^ 32 / 4096 * 4096 = 2 ^ 12 * (w % 2 ^ 32 / 4096) := by omega
  rw [hx, show TLBLO_VALID = 512 from rfl, hq, ← Nat.mul_add_lt_is_or (by decide)]

/-- Flags and frame of the word `as_complete_load` writes for a region saved without
`PF_W`. -/
theorem completed_word_flags (curr : region) (w : Nat)
    (ho : curr.old_permissions &&& PF_W = 0) :
    completed_word curr w &&& TLBLO_DIRTY = 0 ∧
    completed_word curr w &&& TLBLO_VALID ≠ 0 ∧
    completed_word curr w &&& PAGE_FRAME = w &&& PAGE_FRAME ∧
    completed_word curr w ≠ PTE_UNALLOCATED := by
  rw [completed_word_readonly curr w ho]
  have hD : TLBLO_DIRTY = 2 ^ 10 := by decide
  have hV : TLBLO_VALID = 2 ^ 9 := by decide
  have hS : PTE_UNALLOCATED = 4294967295 := rfl
  refine ⟨?_, ?_, ?_, by omega⟩
  · rw [hD]; exact and_two_pow_eq_zero _ _ (by omega)
  · rw [hV]; exact and_two_pow_ne_zero _ _ (by omega)
  · rw [and_PAGE_FRAME _ (by omega), and_PAGE_FRAME_mod]
    omega

theorem completed_word_writable (curr : region) (w : Nat)
    (ho : curr.old_permissions &&& PF_W ≠ 0) : completed_word curr w = w := by
  unfold completed_word
  rw [if_neg ho]

/-- When regions do not wrap and every installed PTE lies in some region, the region search
of `as_complete_load` succeeds at every installed slot. -/
theorem dir_searchable_of_ptes (first : List region) (pt : Nat → Option (Nat → Nat))
    (hok : ∀ r ∈ first, region_ok r) (hpte : ptes_in_regions first pt) :
    dir_searchable first pt := by
  have hK : MIPS_KSEG0 = 2147483648 := rfl
  intro i hi t ht j hj hne
  obtain ⟨r, hr, hin⟩ := hpte i j t hi hj ht hne
  have hro := hok r hr
  unfold region_ok at hro
  exact find_region_isSome first _ r hr (by omega) hin

/-- Claim C15: for an address space with a directory that satisfies the region-list
invariant and in which every installed PTE lies in a region, `as_complete_load` returns 0
and, for every slot: a sentinel slot is still the sentinel; an installed PTE whose region
has `old_permissions` without `PF_W` has `TLBLO_DIRTY` clear, `TLBLO_VALID` set and the
frame bits it had; an installed PTE whose region has `old_permissions` with `PF_W` is
unchanged; and a directory slot is null afterwards exactly when it was null before. -/
theorem as_complete_load_ptes (a : addrspace) (pt : Nat → Option (Nat → Nat))
    (hpt : a.pagetable = some pt) (hinv : region_list_inv a.first)
    (hpte : ptes_in_regions a.first pt) :
    ∃ a1 pt1, as_complete_load (some a) = some (0, some a1) ∧ a1.pagetable = some pt1 ∧
      (∀ i, pt1 i = none ↔ pt i = none) ∧
      ∀ i j, i < NUM_PD_ENTRY → j < NUM_PT_ENTRY →
        (slot_word pt i j = PTE_UNALLOCATED → slot_word pt1 i j = PTE_UNALLOCATED) ∧
        (slot_word pt i j ≠ PTE_UNALLOCATED →
          ∀ r ∈ a.first, in_region r (slot_vaddr i j) →
            (r.old_permissions &&& PF_W = 0 →
              slot_word pt1 i j &&& TLBLO_DIRTY = 0 ∧
              slot_word pt1 i j &&& TLBLO_VALID ≠ 0 ∧
              slot_word pt1 i j &&& PAGE_FRAME = slot_word pt i j &&& PAGE_FRAME ∧
              slot_word pt1 i j ≠ PTE_UNALLOCATED) ∧
            (r.old_permissions &&& PF_W ≠ 0 → slot_word pt1 i j = slot_word pt i j)) := by
  have hK : MIPS_KSEG0 = 2147483648 := rfl
  have hs := dir_searchable_of_ptes a.first pt hinv.1 hpte
  obtain ⟨pt1, hw, hlow, hhigh⟩ := complete_load_walk_spec a.first pt hs
  refine ⟨{ first := a.first.map restore_permissions, pagetable := some pt1 }, pt1, ?_, rfl,
    ?_, ?_⟩
  · unfold as_complete_load
    dsimp only
    rw [hpt]
    dsimp only
    rw [hw]
  · intro i
    by_cases hi : i < NUM_PD_ENTRY
    · rcases hlow i hi with ⟨h1, h2⟩ | ⟨t, t1, h1, h2, _, _⟩
      · rw [h1, h2]
      · rw [h1, h2]
        constructor <;> intro h <;> cases h
    · rw [hhigh i (Nat.le_of_not_lt hi)]
  · intro i j hi hj
    rcases hlow i hi with ⟨h1, h2⟩ | ⟨t, t1, h1, h2, hslots, _⟩
    · unfold slot_word
      rw [h1, h2]
      exact ⟨fun _ => rfl, fun h => absurd rfl h⟩
    · unfold slot_word
      rw [h1, h2]
      dsimp only
      rcases hslots j hj with ⟨h3, h4⟩ | ⟨h3, curr, hf, h4⟩
      · exact ⟨fun _ => h4, fun h => absurd h3 h⟩
      · refine ⟨fun h => absurd h h3, ?_⟩
        intro _ r hr hin
        have hcr : curr = r := by
          have := find_region_unique a.first (slot_vaddr i j) r hr
            (fun s hs => by have := hinv.1 s hs; unfold region_ok at this; omega) hinv.2 hin
          rw [hf] at this
          exact Option.some.inj this
        subst hcr
        rw [h4]
        exact ⟨fun ho => completed_word_flags curr (t j) ho,
               fun ho => completed_word_writable curr (t j) ho⟩

/-- The scenario state `loading_as` is where `as_prepare_load` and a WRITE fault on
`0x00400000` take the address space with the region `[0x00400000, 0x00402000)` R+X. -/
theorem loading_as_reached :
    as_prepare_load (some text2_as) = (0, some ⟨[⟨0x00400000, 0x2000, 7, 5⟩], some empty_dir⟩) ∧
    (vm_fault (some ⟨some ⟨[⟨0x00400000, 0x2000, 7, 5⟩], some empty_dir⟩⟩) VM_FAULT_WRITE
      0x00400000 0x80010000 true).map (fun o => (o.result, o.tlb)) =
      some (0, [(0x00400000, 0x00010600)]) ∧
    ((vm_fault (some ⟨some ⟨[⟨0x00400000, 0x2000, 7, 5⟩], some empty_dir⟩⟩) VM_FAULT_WRITE
      0x00400000 0x80010000 true).bind (fun o => o.as)) = some loading_as := by
  refine ⟨by rfl, by rfl, by rfl⟩

theorem loading_as_ptes :
    ptes_in_regions loading_as.first (Function.update empty_dir 2
      (some (Function.update (fun _ => PTE_UNALLOCATED) 0 0x00010600))) := by
  intro i j t _ _ ht hne
  by_cases hi : i = 2
  · subst hi
    rw [Function.update_same] at ht
    cases ht
    by_cases hj : j = 0
    · subst hj
      exact ⟨⟨0x00400000, 0x2000, 7, 5⟩, List.mem_singleton.2 rfl, by decide⟩
    · rw [Function.update_noteq hj] at hne
      exact absurd rfl hne
  · rw [Function.update_noteq hi] at ht
    cases ht

/-- Claim C15 at its scenario: region `[0x00400000, 0x00402000)` R+X after
`as_prepare_load` and a WRITE fault on `0x00400000` that installed a PTE with `DIRTY` set;
`as_complete_load` leaves that PTE with `DIRTY` clear, `VALID` set and frame `0x00010000`. -/
theorem as_complete_load_ptes_witness :
    ∃ a1 pt1, as_complete_load (some loading_as) = some (0, some a1) ∧
      a1.pagetable = some pt1 ∧
      slot_word pt1 2 0 &&& TLBLO_DIRTY = 0 ∧
      slot_word pt1 2 0 &&& TLBLO_VALID ≠ 0 ∧
      slot_word pt1 2 0 &&& PAGE_FRAME = 0x00010000 :=
  have h := as_complete_load_ptes loading_as _ rfl
    ⟨by intro r hr; rcases List.mem_singleton.1 hr with rfl; decide, List.pairwise_singleton _ _⟩
    loading_as_ptes
  match h with
  | ⟨a1, pt1, h1, h2, _, h4⟩ =>
    have h5 := ((h4 2 0 (by decide) (by decide)).2 (by decide)
      ⟨0x00400000, 0x2000, 7, 5⟩ (List.mem_singleton.2 rfl) (by decide)).1 (by decide)
    ⟨a1, pt1, h1, h2, h5.1, h5.2.1, h5.2.2.1⟩

/-- A loop in the `Option` monad fails when one of its steps fails on every state that
satisfies an invariant of the steps before it. -/
theorem foldlM_option_none {α β : Type} (f : β → α → Option β) (Inv : β → Prop) (l : List α)
    (x0 : α) (hx0 : x0 ∈ l)
    (hstep : ∀ b x b1, Inv b → f b x = some b1 → Inv b1)
    (hfail : ∀ b, Inv b → f b x0 = none) (b : β) (hb : Inv b) :
    l.foldlM f b = none := by
  induction l generalizing b with
  | nil => cases hx0
  | cons x xs ih =>
    rw [List.foldlM_cons]
    cases hfx : f b x with
    | none => rfl
    | some b1 =>
      have hb1 := hstep b x b1 hb hfx
      rcases List.mem_cons.1 hx0 with rfl | hmem
      · rw [hfail b hb] at hfx; cases hfx
      · exact ih hmem b1 hb1

theorem complete_load_table_none (first : List region) (i j0 : Nat) (t : Nat → Nat)
    (hj0 : j0 < NUM_PT_ENTRY) (hw : t j0 ≠ PTE_UNALLOCATED)
    (hnone : find_region first (slot_vaddr i j0) = none) :
    complete_load_table first i t = none := by
  unfold complete_load_table
  refine foldlM_option_none _ (fun t1 => t1 j0 ≠ PTE_UNALLOCATED) _ j0
    (List.mem_range.2 hj0) ?_ ?_ t hw
  · intro b j b1 hb hstep
    unfold complete_load_slot at hstep
    by_cases hbj : b j ≠ PTE_UNALLOCATED
    · rw [if_pos hbj] at hstep
      dsimp only at hstep
      cases hf : find_region first (slot_vaddr i j) with
      | none => rw [hf] at hstep; cases hstep
      | some curr =>
        rw [hf] at hstep
        dsimp only at hstep
        have hjj : j0 ≠ j := by
          intro h; subst h; rw [hnone] at hf; cases hf
        by_cases ho : curr.old_permissions &&& PF_W = 0
        · rw [if_pos ho] at hstep
          cases hstep
          show Function.update b j _ j0 ≠ PTE_UNALLOCATED
          rw [Function.update_noteq hjj]
          exact hb
        · rw [if_neg ho] at hstep
          cases hstep; exact hb
    · rw [if_neg hbj] at hstep
      cases hstep; exact hb
  · intro b hb
    unfold complete_load_slot
    rw [if_pos hb]
    dsimp only
    rw [hnone]

/-- `as_complete_load` dereferences `curr == NULL` when an installed PTE lies in no region
the search finds. -/
theorem as_complete_load_null_search (a : addrspace) (pt : Nat → Option (Nat → Nat))
    (i0 j0 : Nat) (t0 : Nat → Nat) (hpt : a.pagetable = some pt)
    (hi0 : i0 < NUM_PD_ENTRY) (hj0 : j0 < NUM_PT_ENTRY) (ht0 : pt i0 = some t0)
    (hw : t0 j0 ≠ PTE_UNALLOCATED)
    (hnone : find_region a.first (slot_vaddr i0 j0) = none) :
    as_complete_load (some a) = none := by
  have hwalk : complete_load_walk a.first pt = none := by
    unfold complete_load_walk
    refine foldlM_option_none _
      (fun pt1 => ∃ t, pt1 i0 = some t ∧ t j0 ≠ PTE_UNALLOCATED) _ i0
      (List.mem_range.2 hi0) ?_ ?_ pt ⟨t0, ht0, hw⟩
    · intro b i b1 hb hstep
      obtain ⟨t, hbt, htw⟩ := hb
      unfold complete_load_entry at hstep
      cases hbi : b i with
      | none =>
        rw [hbi] at hstep
        cases hstep
        exact ⟨t, hbt, htw⟩
      | some ti =>
        rw [hbi] at hstep
        dsimp only at hstep
        cases hti : complete_load_table a.first i ti with
        | none => rw [hti] at hstep; cases hstep
        | some t1 =>
          rw [hti] at hstep
          cases hstep
          have hii : i0 ≠ i := by
            intro h; subst h
            rw [hbt] at hbi
            cases hbi
            rw [complete_load_table_none a.first i0 j0 t hj0 htw hnone] at hti
            cases hti
          refine ⟨t, ?_, htw⟩
          show Function.update b i _ i0 = some t
          rw [Function.update_noteq hii]
          exact hbt
    · intro b hb
      obtain ⟨t, hbt, htw⟩ := hb
      unfold complete_load_entry
      rw [hbt]
      dsimp only
      rw [complete_load_table_none a.first i0 j0 t hj0 htw hnone]
      rfl
  unfold as_complete_load
  dsimp only
  rw [hpt]
  dsimp only
  rw [hwalk]

/-- Claim C14 at the address space `as_create` returns on the stale directory block: it is
reachable, its region list is empty, slot `(1023, 511)` holds the word `0x00020600` for the
page `0x7FFFF000`, the region search for that page ends at null, and `as_complete_load`
dereferences that null pointer. -/
theorem stale_as_breaks_pte_invariant :
    reachable 0x12000 stale_as ∧
    stale_as.first = [] ∧
    read_slot stale_as 1023 511 = some 0x00020600 ∧
    slot_vaddr 1023 511 = 0x7FFFF000 ∧
    find_region stale_as.first (slot_vaddr 1023 511) = none ∧
    as_complete_load (some stale_as) = none := by
  refine ⟨reachable.create true (some stale_dir) _ rfl, rfl, by rfl, by decide, by rfl, ?_⟩
  exact as_complete_load_null_search stale_as _ 1023 511
    (Function.update (fun _ => PTE_UNALLOCATED) 511 0x00020600) rfl (by decide) (by decide)
    (by rfl) (by decide) (by rfl)

/-- What `as_create` returns: an empty region list and a directory whose slots below
`NUM_PT_ENTRY` are null and whose other slots hold what the allocated memory held. -/
theorem as_create_spec (kmalloc_as : Bool) (kmalloc_dir : Option (Nat → Option (Nat → Nat)))
    (a : addrspace) (h : as_create kmalloc_as kmalloc_dir = some a) :
    a.first = [] ∧ ∃ mem pt, kmalloc_dir = some mem ∧ a.pagetable = some pt ∧
      (∀ i, i < NUM_PT_ENTRY → pt i = none) ∧ (∀ i, NUM_PT_ENTRY ≤ i → pt i = mem i) := by
  unfold as_create at h
  by_cases hk : kmalloc_as = false
  · rw [if_pos hk] at h; cases h
  · rw [if_neg hk] at h
    cases kmalloc_dir with
    | none => cases h
    | some mem =>
      cases h
      refine ⟨rfl, mem, _, rfl, rfl, ?_, ?_⟩
      · intro i hi
        show (if i < NUM_PT_ENTRY then none else mem i) = none
        rw [if_pos hi]
      · intro i hi
        show (if i < NUM_PT_ENTRY then none else mem i) = mem i
        rw [if_neg (Nat.not_lt.2 hi)]

/-- In a list of pairwise disjoint regions at most one region contains a given address. -/
theorem region_unique (l : List region) (hd : l.Pairwise regions_disjoint) (x : Nat)
    (r s : region) (hr : r ∈ l) (hs : s ∈ l) (hrx : in_region r x) (hsx : in_region s x) :
    s = r := by
  by_contra hne
  have hsym : Symmetric regions_disjoint := by
    intro a b hab y hy
    exact hab y ⟨hy.2.2.1, hy.2.2.2, hy.1, hy.2.1⟩
  exact hd.forall hsym hs hr hne x ⟨hsx.1, hsx.2, hrx.1, hrx.2⟩

theorem ptes_of_dir_searchable (first : List region) (pt : Nat → Option (Nat → Nat))
    (hs : dir_searchable first pt) : ptes_in_regions first pt := by
  intro i j t hi hj ht hne
  have h := hs i hi t ht j hj hne
  cases hf : find_region first (slot_vaddr i j) with
  | none => rw [hf] at h; cases h
  | some r => exact ⟨r, (find_region_some first _ r hf).1, (find_region_some first _ r hf).2⟩

theorem ptes_in_regions_map (f : region → region)
    (hf : ∀ r, (f r).base_addr = r.base_addr ∧ (f r).memsize = r.memsize)
    (first : List region) (pt : Nat → Option (Nat → Nat)) (h : ptes_in_regions first pt) :
    ptes_in_regions (first.map f) pt := by
  intro i j t hi hj ht hne
  obtain ⟨r, hr, hin⟩ := h i j t hi hj ht hne
  refine ⟨f r, List.mem_map_of_mem f hr, ?_⟩
  unfold in_region at hin ⊢
  rw [(hf r).1, (hf r).2]
  exact hin

theorem as_define_region_frame (a a1 : addrspace) (vaddr memsize : Nat)
    (readable writeable executable : Int) (k : Option Nat) (hv : vaddr < 2 ^ 32)
    (h : (as_define_region (some a) vaddr memsize readable writeable executable k).2 = some a1) :
    a1.pagetable = a.pagetable ∧ (a1.first = a.first ∨ ∃ r, a1.first = r :: a.first) := by
  rw [as_define_region_unfold a vaddr memsize readable writeable executable k hv] at h
  by_cases hc : check_region a (aligned_base vaddr) (aligned_size vaddr memsize % 2 ^ 32) ≠ 0
  · rw [if_pos hc] at h
    cases h; exact ⟨rfl, Or.inl rfl⟩
  · rw [if_neg hc] at h
    cases k with
    | none => cases h; exact ⟨rfl, Or.inl rfl⟩
    | some g => cases h; exact ⟨rfl, Or.inr ⟨_, rfl⟩⟩

theorem ptes_in_regions_grow (first first1 : List region) (pt : Nat → Option (Nat → Nat))
    (hg : first1 = first ∨ ∃ r, first1 = r :: first) (h : ptes_in_regions first pt) :
    ptes_in_regions first1 pt := by
  intro i j t hi hj ht hne
  obtain ⟨r, hr, hin⟩ := h i j t hi hj ht hne
  rcases hg with rfl | ⟨r0, rfl⟩
  · exact ⟨r, hr, hin⟩
  · exact ⟨r, List.mem_cons_of_mem _ hr, hin⟩

theorem insert_pte_no_directory (a : addrspace) (vaddr paddr : Nat) (k : Bool)
    (hv : vaddr < 2 ^ 32) (hpt : a.pagetable = none) : insert_pte a vaddr paddr k = none := by
  unfold insert_pte
  dsimp only
  rw [if_neg (index_in_range vaddr hv), hpt]

/-- Every operation after `as_create` keeps the installed PTEs inside regions. -/
theorem as_step_keeps_ptes (USTACK_SIZE : Nat) (a a1 : addrspace)
    (hinv : region_list_inv a.first)
    (hp : ∀ pt, a.pagetable = some pt → ptes_in_regions a.first pt)
    (h : as_step USTACK_SIZE a a1) :
    ∀ pt1, a1.pagetable = some pt1 → ptes_in_regions a1.first pt1 := by
  cases h with
  | define_region vaddr memsize r w x k hv _ hd =>
    obtain ⟨h1, h2⟩ := as_define_region_frame a a1 vaddr memsize r w x k hv hd
    intro pt1 hpt1
    rw [h1] at hpt1
    exact ptes_in_regions_grow _ _ _ h2 (hp pt1 hpt1)
  | define_stack k hd =>
    unfold as_define_stack at hd
    obtain ⟨h1, h2⟩ := as_define_region_frame a a1 _ _ 1 1 0 k (Nat.mod_lt _ (by decide)) hd
    intro pt1 hpt1
    rw [h1] at hpt1
    exact ptes_in_regions_grow _ _ _ h2 (hp pt1 hpt1)
  | prepare_load hpl =>
    unfold as_prepare_load at hpl
    cases hpl
    intro pt1 hpt1
    exact ptes_in_regions_map prepare_region (fun r => ⟨rfl, rfl⟩) _ _ (hp pt1 hpt1)
  | complete_load ret hc =>
    unfold as_complete_load at hc
    dsimp only at hc
    cases hpt : a.pagetable with
    | none => rw [hpt] at hc; cases hc
    | some pt =>
      rw [hpt] at hc
      dsimp only at hc
      have hs := dir_searchable_of_ptes a.first pt hinv.1 (hp pt hpt)
      obtain ⟨pt2, hw, hlow, _⟩ := complete_load_walk_spec a.first pt hs
      rw [hw] at hc
      cases hc
      intro pt1 hpt1
      cases hpt1
      apply ptes_in_regions_map restore_permissions
        (fun r => ⟨(restore_permissions_fields r).1, (restore_permissions_fields r).2.1⟩)
      intro i j t1 hi hj ht1 hne
      rcases hlow i hi with ⟨_, h2⟩ | ⟨t, t0, h1, h2, hslots, _⟩
      · rw [h2] at ht1; cases ht1
      · rw [h2] at ht1
        cases ht1
        rcases hslots j hj with ⟨_, h4⟩ | ⟨h3, _, _, _⟩
        · exact absurd h4 hne
        · exact hp pt hpt i j t hi hj h1 h3
  | fault ft addr alloc k out hv hf ha =>
    rcases vm_fault_as_cases a a1 ft addr alloc k out hf ha with rfl | ⟨code, hins⟩
    · exact hp
    · cases hpt : a.pagetable with
      | none =>
        rw [insert_pte_no_directory a addr _ k hv hpt] at hins
        cases hins
      | some pt =>
        have hs := dir_searchable_of_ptes a.first pt hinv.1 (hp pt hpt)
        obtain ⟨pt2, hpt2, hs2⟩ := insert_pte_searchable a a1 pt addr _ code k hpt hv
          (fun r hr => (hinv.1 r hr).1) hs hins
        intro pt1 hpt1
        rw [hpt2] at hpt1
        cases hpt1
        rw [insert_pte_first _ _ _ _ _ _ hins]
        exact ptes_of_dir_searchable _ _ hs2

/-- The page-table invariant in the form of the claim: under the region-list invariant,
an installed PTE that lies in some region lies within exactly one region. -/
theorem ptes_in_exactly_one_region (a : addrspace) (pt : Nat → Option (Nat → Nat))
    (hinv : region_list_inv a.first) (hp : ptes_in_regions a.first pt)
    (i j : Nat) (hi : i < NUM_PD_ENTRY) (hj : j < NUM_PT_ENTRY)
    (hne : slot_word pt i j ≠ PTE_UNALLOCATED) :
    ∃ r ∈ a.first, in_region r (slot_vaddr i j) ∧
      ∀ s ∈ a.first, in_region s (slot_vaddr i j) → s = r := by
  unfold slot_word at hne
  cases hpi : pt i with
  | none => rw [hpi] at hne; exact absurd rfl hne
  | some t =>
    rw [hpi] at hne
    obtain ⟨r, hr, hin⟩ := hp i j t hi hj hpi hne
    exact ⟨r, hr, hin, fun s hs hsx => region_unique a.first hinv.2 _ r s hr hs hin hsx⟩

/-- The address space `as_create` returns satisfies the page-table invariant when the
memory it was given is null in the directory slots its loop does not reach. -/
theorem as_create_clean_ptes (kmalloc_as : Bool) (mem : Nat → Option (Nat → Nat))
    (a : addrspace) (h : as_create kmalloc_as (some mem) = some a)
    (hclean : ∀ i, NUM_PT_ENTRY ≤ i → mem i = none) :
    ∀ pt, a.pagetable = some pt → ptes_in_regions a.first pt := by
  obtain ⟨_, mem1, pt0, hm, hpt0, hlow, hhigh⟩ := as_create_spec kmalloc_as (some mem) a h
  cases hm
  intro pt hpt i j t _ _ ht _
  rw [hpt0] at hpt
  cases hpt
  by_cases hi : i < NUM_PT_ENTRY
  · rw [hlow i hi] at ht; cases ht
  · rw [hhigh i (Nat.le_of_not_lt hi), hclean i (Nat.le_of_not_lt hi)] at ht; cases ht

end VM
